import Mathlib

/-! # pglite: the embedding compatibility layer

A shallow embedding of the hand-written shims of `pglite-sys`:

* `src/pglite-sys/src/shim/fs.c`: `pglite_mkdir`, `pglite_opendir`, `pglite_stat`, `pglite_open`;
* `src/pglite-sys/src/shim/pqsignal.c`: `UnBlockSig`, `BlockSig`, `StartupBlockSig`, `pqinitmask`,
  `pqsigsetmask`;
* `src/pglite-sys/bindings.h`: the declaration of `pglite_set_bootstrap_processing_mode`;
* `src/postgres-gen/src/pl/plpgsql/src/pl_gram.c`: `tok_is_keyword`, `check_labels`,
  `check_raise_parameters`, `check_assignable`, `read_into_scalar_list`, `read_sql_construct`.

The C code is stateful, so every function is a state transformer over `Proc`, the part of the
process state the shims read or write.  What the shims call but do not define (the system calls,
and the way `psprintf`, `elog`, `pfree` and `fprintf` may disturb `errno`) is a parameter, `Sys`.
The parser routines read their tokens from a list, the tokens `yylex` will deliver in order; a
routine that raises an error at level `ERROR` returns that error instead of a value.
-/

namespace Pglite

/-! ## C strings and printf-style formatting -/

/-- A C string: the characters before the terminating NUL. -/
abbrev CString := List Char

/-- One variadic argument of a printf-style call. -/
inductive FmtArg where
  | str (s : CString)
  | uint (n : Nat)
  deriving DecidableEq, Repr

/-- Lower-case hexadecimal digits of `n`, as `%x` prints them. -/
def hexdigits (n : Nat) : CString := Nat.toDigits 16 n

/-- The text a printf-style call produces for the directives the shims use: `%s` copies a string
argument, `%x` prints an `unsigned int` in hexadecimal, `%%` is a literal percent sign, every other
character is copied. -/
def vformat : List Char → List FmtArg → CString
  | [], _ => []
  | '%' :: '%' :: rest, args => '%' :: vformat rest args
  | '%' :: 's' :: rest, FmtArg.str a :: args => a ++ vformat rest args
  | '%' :: 'x' :: rest, FmtArg.uint n :: args => hexdigits (n % 2 ^ 32) ++ vformat rest args
  | c :: rest, args => c :: vformat rest args

/-! ## Process state -/

/-- What the process does that an observer outside the shims can see, in program order. -/
inductive Event where
  | palloc (addr : Nat) (text : CString)
  | elog (level : Nat) (msg : CString)
  | mkdir (path : CString) (mode : Nat)
  | opendir (path : CString)
  | stat (path : CString)
  | sys_open (path : CString) (flags : Int) (mode : Nat)
  | pfree (addr : Nat)
  | stderr (text : CString)
  deriving DecidableEq, Repr

/-- The path argument of a system-call event. -/
def Event.sysPath : Event → Option CString
  | Event.mkdir path _ => some path
  | Event.opendir path => some path
  | Event.stat path => some path
  | Event.sys_open path _ _ => some path
  | _ => none

/-- Whether an event is one of the four wrapped system calls. -/
def Event.isSyscall (e : Event) : Bool := e.sysPath.isSome

/-- The bytes of a caller's `struct stat`. -/
abbrev StatBuf := List Nat

/-- What a system call hands back: the operating system's state after it, its return value, and
the value it stored in `errno` (`none` when it left `errno` alone). -/
structure SysRet (W R : Type) where
  world : W
  ret : R
  err : Option Int

/-- What `stat` hands back: as `SysRet`, with the contents of the caller's buffer after the call. -/
structure StatRet (W : Type) where
  world : W
  ret : Int
  err : Option Int
  buf : StatBuf

/-- The collaborators the shims call: the four real system calls over the operating system's
state `W`, and the value each library routine leaves in `errno` given the value it found. -/
structure Sys (W : Type) where
  mkdir : W → CString → Nat → SysRet W Int
  opendir : W → CString → SysRet W Nat
  stat : W → CString → StatBuf → StatRet W
  sys_open : W → CString → Int → Nat → SysRet W Int
  psprintf_errno : Int → Int
  elog_errno : Int → Int
  pfree_errno : Int → Int
  fprintf_errno : Int → Int

/-- The process state the shims act on.  `heap` holds the live palloc chunks (address, contents),
`brk` is the next fresh address, `events` the observable actions so far. -/
structure Proc (W : Type) where
  DataDir : CString
  errno : Int
  world : W
  heap : List (Nat × CString)
  brk : Nat
  events : List Event
  UnBlockSig : Nat
  BlockSig : Nat
  StartupBlockSig : Nat

variable {W : Type}

/-- The events `after` has on top of those of `before`. -/
def new_events (before after : Proc W) : List Event :=
  after.events.drop before.events.length

/-- The paths handed to system calls in a run of events, in order. -/
def syscall_paths (evs : List Event) : List CString := evs.filterMap Event.sysPath

/-- Severity `DEBUG1` of `utils/elog.h`. -/
def DEBUG1 : Nat := 14

/-- The string a `char*` points to: the contents of the live chunk at that address. -/
def cstr (s : Proc W) (p : Nat) : CString := (s.heap.lookup p).getD []

/-- The call `psprintf(fmt, ...)`: formats into a freshly allocated chunk and returns its address.
The allocation is taken to succeed. -/
def psprintf (h : Sys W) (s : Proc W) (fmt : CString) (args : List FmtArg) : Proc W × Nat :=
  let text := vformat fmt args
  ({ s with heap := (s.brk, text) :: s.heap, brk := s.brk + 1, errno := h.psprintf_errno s.errno,
            events := s.events ++ [Event.palloc s.brk text] }, s.brk)

/-- The call `elog(level, fmt, ...)` below `ERROR`: one diagnostic record; `errno` is not preserved. -/
def elog (h : Sys W) (s : Proc W) (level : Nat) (fmt : CString) (args : List FmtArg) : Proc W :=
  { s with errno := h.elog_errno s.errno,
           events := s.events ++ [Event.elog level (vformat fmt args)] }

/-- The call `pfree(p)`: releases the chunk at `p`; `errno` is not preserved. -/
def pfree (h : Sys W) (s : Proc W) (p : Nat) : Proc W :=
  { s with heap := s.heap.filter (fun c => c.1 != p), errno := h.pfree_errno s.errno,
           events := s.events ++ [Event.pfree p] }

/-- The call `mkdir(path, mode)` made by the process in state `s`. -/
def sys_mkdir (h : Sys W) (s : Proc W) (path : CString) (mode : Nat) : Proc W × Int :=
  let r := h.mkdir s.world path mode
  ({ s with world := r.world, errno := r.err.getD s.errno,
            events := s.events ++ [Event.mkdir path mode] }, r.ret)

/-- The call `opendir(path)`; the result is the `DIR*`, with `0` for `NULL`. -/
def sys_opendir (h : Sys W) (s : Proc W) (path : CString) : Proc W × Nat :=
  let r := h.opendir s.world path
  ({ s with world := r.world, errno := r.err.getD s.errno,
            events := s.events ++ [Event.opendir path] }, r.ret)

/-- The call `stat(path, buf)`; `buf` is the buffer's contents before, the result carries them
after. -/
def sys_stat (h : Sys W) (s : Proc W) (path : CString) (buf : StatBuf) : Proc W × Int × StatBuf :=
  let r := h.stat s.world path buf
  ({ s with world := r.world, errno := r.err.getD s.errno,
            events := s.events ++ [Event.stat path] }, r.ret, r.buf)

/-- The call `open(path, flags, mode)`. -/
def sys_open (h : Sys W) (s : Proc W) (path : CString) (flags : Int) (mode : Nat) : Proc W × Int :=
  let r := h.sys_open s.world path flags mode
  ({ s with world := r.world, errno := r.err.getD s.errno,
            events := s.events ++ [Event.sys_open path flags mode] }, r.ret)

/-! ## `fs.c` -/

/-- Lines 13-17 of `fs.c`: `pglite_mkdir` up to and including the return of `mkdir`.
Yields the state there, `abs_path` and `rc`. -/
def pglite_mkdir_syscall (h : Sys W) (s : Proc W) (path : CString) (mode : Nat) :
    Proc W × Nat × Int :=
  let (s, abs_path) := psprintf h s "%s/%s".toList [.str s.DataDir, .str path]
  let s := elog h s DEBUG1 "pglite_mkdir: %s\n".toList [.str (cstr s abs_path)]
  let s := { s with errno := 0 }
  let (s, rc) := sys_mkdir h s (cstr s abs_path) mode
  (s, abs_path, rc)

/-- The function `pglite_mkdir` (`fs.c:9-24`). -/
def pglite_mkdir (h : Sys W) (s : Proc W) (path : CString) (mode : Nat) : Proc W × Int :=
  let (s, abs_path, rc) := pglite_mkdir_syscall h s path mode
  let save_errno := s.errno
  let s := pfree h s abs_path
  let s := { s with errno := save_errno }
  (s, rc)

/-- Lines 31-35 of `fs.c`: `pglite_opendir` up to and including the return of `opendir`. -/
def pglite_opendir_syscall (h : Sys W) (s : Proc W) (path : CString) : Proc W × Nat × Nat :=
  let (s, abs_path) := psprintf h s "%s/%s".toList [.str s.DataDir, .str path]
  let s := elog h s DEBUG1 "pglite_opendir: %s\n".toList [.str (cstr s abs_path)]
  let s := { s with errno := 0 }
  let (s, dir) := sys_opendir h s (cstr s abs_path)
  (s, abs_path, dir)

/-- The function `pglite_opendir` (`fs.c:26-42`). -/
def pglite_opendir (h : Sys W) (s : Proc W) (path : CString) : Proc W × Nat :=
  let (s, abs_path, dir) := pglite_opendir_syscall h s path
  let save_errno := s.errno
  let s := pfree h s abs_path
  let s := { s with errno := save_errno }
  (s, dir)

/-- Lines 48-52 of `fs.c`: `pglite_stat` up to and including the return of `stat`. -/
def pglite_stat_syscall (h : Sys W) (s : Proc W) (path : CString) (buf : StatBuf) :
    Proc W × Nat × Int × StatBuf :=
  let (s, abs_path) := psprintf h s "%s/%s".toList [.str s.DataDir, .str path]
  let s := elog h s DEBUG1 "pglite_stat: %s\n".toList [.str (cstr s abs_path)]
  let s := { s with errno := 0 }
  let (s, rc, buf) := sys_stat h s (cstr s abs_path) buf
  (s, abs_path, rc, buf)

/-- The function `pglite_stat` (`fs.c:44-59`); the last component is the caller's buffer on
return. -/
def pglite_stat (h : Sys W) (s : Proc W) (path : CString) (buf : StatBuf) :
    Proc W × Int × StatBuf :=
  let (s, abs_path, rc, buf) := pglite_stat_syscall h s path buf
  let save_errno := s.errno
  let s := pfree h s abs_path
  let s := { s with errno := save_errno }
  (s, rc, buf)

/-- Lines 65-69 of `fs.c`: `pglite_open` up to and including the return of `open`. -/
def pglite_open_syscall (h : Sys W) (s : Proc W) (path : CString) (flags : Int) (mode : Nat) :
    Proc W × Nat × Int :=
  let (s, abs_path) := psprintf h s "%s/%s".toList [.str s.DataDir, .str path]
  let s := elog h s DEBUG1 "pglite_open: %s\n".toList [.str (cstr s abs_path)]
  let s := { s with errno := 0 }
  let (s, fd) := sys_open h s (cstr s abs_path) flags mode
  (s, abs_path, fd)

/-- The function `pglite_open` (`fs.c:61-76`). -/
def pglite_open (h : Sys W) (s : Proc W) (path : CString) (flags : Int) (mode : Nat) :
    Proc W × Int :=
  let (s, abs_path, fd) := pglite_open_syscall h s path flags mode
  let save_errno := s.errno
  let s := pfree h s abs_path
  let s := { s with errno := save_errno }
  (s, fd)

/-! ## `pqsignal.c` -/

/-- The function `pqinitmask` (`pqsignal.c:12-14`): an empty body. -/
def pqinitmask (s : Proc W) : Proc W := s

/-- The function `pqsigsetmask` (`pqsignal.c:16-19`).  Its body is the single `fprintf`; control
then reaches the closing brace.  The second component is the value of the `return` statement that
was executed, `none` when the function ended without one. -/
def pqsigsetmask (h : Sys W) (s : Proc W) (mask : Nat) : Proc W × Option Int :=
  let s := { s with errno := h.fprintf_errno s.errno,
                    events := s.events ++
                      [Event.stderr (vformat "pqlite: pqsigsetmask: %x\n".toList [.uint mask])] }
  (s, none)

/-! ## Startup-mode override -/

/-- Modelled from the spec: the engine's Processing Mode, "an engine-global enumerated state
(e.g., normal, bootstrap)" (spec section 3); the enumeration lives in the engine's `miscadmin.h`,
which is not part of the sources at hand. -/
inductive ProcessingMode where
  | BootstrapProcessing
  | InitProcessing
  | NormalProcessing
  deriving DecidableEq, Repr

/-- Modelled from the spec: the engine state the startup-mode override is specified over
(spec sections 3, 4.4 and 8.6): the global `Mode`, the mode the engine's startup logic read when
it ran (`none` before it has run), and all remaining state of the process. -/
structure Engine (σ : Type) where
  Mode : ProcessingMode
  observed : Option ProcessingMode
  rest : σ

/-- Modelled from the spec: `pglite_set_bootstrap_processing_mode` is declared in `bindings.h:16`
and defined nowhere in the sources at hand.  Spec section 4.4: "writes the engine's global
Processing Mode variable to the bootstrap value ... Side effect: none beyond the single global
write". -/
def pglite_set_bootstrap_processing_mode {σ : Type} (e : Engine σ) : Engine σ :=
  { e with Mode := ProcessingMode.BootstrapProcessing }

/-- Modelled from the spec: the engine's mode-read step (spec sections 4.4 and 8.6): the startup
logic reads the global `Mode` and branches on the value it read. -/
def engine_read_mode {σ : Type} (e : Engine σ) : Engine σ :=
  { e with observed := some e.Mode }

/-! ## A small operating system to run the shims on -/

/-- Error number `ENOENT`. -/
def ENOENT : Int := 2

/-- Error number `EEXIST`. -/
def EEXIST : Int := 17

/-- A file system that is a list of existing paths: the calls succeed on the paths listed and fail
with `ENOENT` elsewhere (`mkdir`: adds the path, fails with `EEXIST` when listed).  The library
routines leave distinct non-zero values in `errno`. -/
def toyfs : Sys (List CString) where
  mkdir w path _ := if path ∈ w then ⟨w, -1, some EEXIST⟩ else ⟨path :: w, 0, none⟩
  opendir w path := if path ∈ w then ⟨w, 1, none⟩ else ⟨w, 0, some ENOENT⟩
  stat w path buf := if path ∈ w then ⟨w, 0, none, [path.length]⟩ else ⟨w, -1, some ENOENT, buf⟩
  sys_open w path _ _ := if path ∈ w then ⟨w, 3, none⟩ else ⟨w, -1, some ENOENT⟩
  psprintf_errno _ := 12
  elog_errno _ := 9
  pfree_errno _ := 22
  fprintf_errno e := e

/-- The process at start: virtual root `R`, file system `w`, nothing allocated, nothing logged,
the three signal sets zero-initialised. -/
def boot {W : Type} (R : CString) (w : W) : Proc W :=
  { DataDir := R, errno := 0, world := w, heap := [], brk := 1, events := [],
    UnBlockSig := 0, BlockSig := 0, StartupBlockSig := 0 }

/-! ## Observations on events, the heap and the signal sets -/

/-- Whether an event is a diagnostic record. -/
def Event.isElog : Event → Bool
  | Event.elog _ _ => true
  | _ => false

/-- Whether an event allocates or releases a chunk. -/
def Event.isMem : Event → Bool
  | Event.palloc _ _ => true
  | Event.pfree _ => true
  | _ => false

/-- The heap is well formed when every live chunk lies below `brk`, the next fresh address. -/
def heap_wf (s : Proc W) : Bool := s.heap.all (fun c => decide (c.1 < s.brk))

/-- The empty signal set: no bit set, the value of a zero-initialised `sigset_t`. -/
def empty_sigset : Nat := 0

/-- The three signal sets of a process state: `UnBlockSig`, `BlockSig`, `StartupBlockSig`. -/
def sigsets (s : Proc W) : Nat × Nat × Nat := (s.UnBlockSig, s.BlockSig, s.StartupBlockSig)

/-- A process on `toyfs` whose caller keeps its relative path `base` in the live chunk at
address `1`. -/
def demo_proc : Proc (List CString) :=
  { boot "/data".toList [] with heap := [(1, "base".toList)], brk := 2 }

/-! ## Lexical path normalisation and sequences of calls -/

/-- The pieces of a path between its slashes, empty pieces included. -/
def split_slash : CString → List CString
  | [] => [[]]
  | c :: cs =>
    if c = '/' then [] :: split_slash cs
    else
      match split_slash cs with
      | [] => [[c]]
      | seg :: segs => (c :: seg) :: segs

/-- One step of collapsing a path lexically: empty and `.` segments are dropped, `..` removes the
segment before it (nothing at the top), any other segment is kept. -/
def collapse_step (stack : List CString) (seg : CString) : List CString :=
  if seg = [] ∨ seg = ".".toList then stack
  else if seg = "..".toList then stack.dropLast
  else stack ++ [seg]

/-- The location an absolute path names once its `..` segments are collapsed lexically: the
directory names from the top down. -/
def collapse_dotdot (p : CString) : List CString := (split_slash p).foldl collapse_step []

/-- One call into the layer: an entry point of `pqsignal.c` or of `fs.c` with its arguments. -/
inductive ShimCall where
  | pqinitmask
  | pqsigsetmask (mask : Nat)
  | pglite_mkdir (path : CString) (mode : Nat)
  | pglite_opendir (path : CString)
  | pglite_stat (path : CString) (buf : StatBuf)
  | pglite_open (path : CString) (flags : Int) (mode : Nat)

/-- The process state after one call. -/
def ShimCall.run (h : Sys W) (s : Proc W) : ShimCall → Proc W
  | ShimCall.pqinitmask => Pglite.pqinitmask s
  | ShimCall.pqsigsetmask mask => (Pglite.pqsigsetmask h s mask).1
  | ShimCall.pglite_mkdir path mode => (Pglite.pglite_mkdir h s path mode).1
  | ShimCall.pglite_opendir path => (Pglite.pglite_opendir h s path).1
  | ShimCall.pglite_stat path buf => (Pglite.pglite_stat h s path buf).1
  | ShimCall.pglite_open path flags mode => (Pglite.pglite_open h s path flags mode).1

/-- The process state after a sequence of calls, made in order. -/
def run_calls (h : Sys W) (s : Proc W) (cs : List ShimCall) : Proc W :=
  cs.foldl (ShimCall.run h) s

/-! ## `pl_gram.c`: errors, tokens and datums -/

/-- One argument of an error message. -/
inductive ErrArg where
  | str (s : CString)
  | int (n : Int)
  deriving DecidableEq, Repr

/-- An error raised at level `ERROR`; raising one ends the function that raised it.
`ereport` carries the error code, the message format with its arguments and the position given
by `parser_errposition`; `elog` the format and arguments; `yyerror` its message. -/
inductive PgError where
  | ereport (errcode : String) (fmt : String) (args : List ErrArg) (position : Option Int)
  | elog (fmt : String) (args : List ErrArg)
  | yyerror (msg : String)
  deriving DecidableEq, Repr

/-- The token code of a single-character token. -/
def tok_of (c : Char) : Int := c.toNat

/-- Token code `T_WORD` (symbol 20 of `yytranslate`, so code 275). -/
def T_WORD : Int := 275

/-- Token code `T_CWORD` (symbol 21, code 276). -/
def T_CWORD : Int := 276

/-- Token code `T_DATUM` (symbol 22, code 277). -/
def T_DATUM : Int := 277

/-- Token code `K_THEN` (symbol 120, code 375). -/
def K_THEN : Int := 375

/-- Datum kind `PLPGSQL_DTYPE_VAR` of `plpgsql.h`. -/
def PLPGSQL_DTYPE_VAR : Int := 0

/-- Datum kind `PLPGSQL_DTYPE_ROW` of `plpgsql.h`. -/
def PLPGSQL_DTYPE_ROW : Int := 1

/-- Datum kind `PLPGSQL_DTYPE_REC` of `plpgsql.h`. -/
def PLPGSQL_DTYPE_REC : Int := 2

/-- Datum kind `PLPGSQL_DTYPE_RECFIELD` of `plpgsql.h`. -/
def PLPGSQL_DTYPE_RECFIELD : Int := 3

/-- Datum kind `PLPGSQL_DTYPE_PROMISE` of `plpgsql.h`. -/
def PLPGSQL_DTYPE_PROMISE : Int := 4

/-- The C library's `strcmp`: `0` for equal strings, negative or positive by the first
difference. -/
def strcmp : CString → CString → Int
  | [], [] => 0
  | [], _ :: _ => -1
  | _ :: _, [] => 1
  | a :: as, b :: bs => if a = b then strcmp as bs else if a.toNat < b.toNat then -1 else 1

/-- A datum as the parser reads it: the fields of `PLpgSQL_datum`, `PLpgSQL_variable` and
`PLpgSQL_recfield` that `pl_gram.c` looks at. -/
structure PLpgSQL_datum where
  dtype : Int
  dno : Int
  refname : CString
  isconst : Bool
  recparentno : Int
  deriving DecidableEq, Repr

/-- The semantic value of a `T_DATUM` token (`PLwdatum`): `ident` is `NULL` (`none`) for a
composite name, whose parts are then in `idents`. -/
structure PLwdatum where
  datum : PLpgSQL_datum
  ident : Option CString
  quoted : Bool
  idents : List CString
  deriving DecidableEq, Repr

/-- The semantic value of a token (`union YYSTYPE`), as read through its members `wdatum`,
`word.ident` and `cword.idents`. -/
structure YYSTYPE where
  wdatum : PLwdatum
  word : CString
  cword : List CString
  deriving DecidableEq, Repr

/-- A token as `yylex` delivers it: its code, `yylval` and `yylloc`. -/
structure Token where
  code : Int
  lval : YYSTYPE
  lloc : Int
  deriving DecidableEq, Repr

/-- The entry `plpgsql_Datums[i]`; `none` when `i` is outside the table. -/
def datum_at (Datums : List PLpgSQL_datum) (i : Int) : Option PLpgSQL_datum :=
  if 0 ≤ i then Datums.get? i.toNat else none

/-! ## `pl_gram.c`: `tok_is_keyword`, `check_labels`, `check_raise_parameters` -/

/-- The function `tok_is_keyword` (`pl_gram.c:4782-4809`). -/
def tok_is_keyword (token : Int) (lval : YYSTYPE) (kw_token : Int) (kw_str : CString) : Bool :=
  if token = kw_token then
    true
  else if token = T_DATUM then
    match lval.wdatum.ident with
    | some ident =>
      if !lval.wdatum.quoted && decide (strcmp ident kw_str = 0) then true else false
    | none => false
  else
    false

/-- The function `check_labels` (`pl_gram.c:5936-5958`); a label is `none` for `NULL`. -/
def check_labels (start_label end_label : Option CString) (end_location : Int) :
    Except PgError Unit :=
  match end_label with
  | some e =>
    match start_label with
    | none =>
      Except.error (PgError.ereport "ERRCODE_SYNTAX_ERROR"
        "end label \"%s\" specified for unlabeled block" [ErrArg.str e] (some end_location))
    | some s =>
      if strcmp s e ≠ 0 then
        Except.error (PgError.ereport "ERRCODE_SYNTAX_ERROR"
          "end label \"%s\" differs from block's label \"%s\"" [ErrArg.str e, ErrArg.str s]
          (some end_location))
      else Except.ok ()
  | none => Except.ok ()

/-- The statement `RAISE` as `check_raise_parameters` reads it: the message (`none` for `NULL`)
and the list of parameter expressions. -/
structure PLpgSQL_stmt_raise where
  message : Option CString
  params : List CString
  deriving DecidableEq, Repr

/-- The `for` loop of `check_raise_parameters` (`pl_gram.c:6212-6222`): the first argument is
the text at `cp`, the second `expected_nparams`; the result is `expected_nparams` at loop exit.
A message is shorter than `2 ^ 30` bytes, so the C `int` does not overflow. -/
def raise_scan : List Char → Nat → Nat
  | [], n => n
  | '%' :: '%' :: rest, n => raise_scan rest n
  | '%' :: rest, n => raise_scan rest (n + 1)
  | _ :: rest, n => raise_scan rest n

/-- The function `check_raise_parameters` (`pl_gram.c:6203-6232`). -/
def check_raise_parameters (stmt : PLpgSQL_stmt_raise) : Except PgError Unit :=
  match stmt.message with
  | none => Except.ok ()
  | some message =>
    let expected_nparams := raise_scan message 0
    if expected_nparams < stmt.params.length then
      Except.error (PgError.ereport "ERRCODE_SYNTAX_ERROR"
        "too many parameters specified for RAISE" [] none)
    else if expected_nparams > stmt.params.length then
      Except.error (PgError.ereport "ERRCODE_SYNTAX_ERROR"
        "too few parameters specified for RAISE" [] none)
    else Except.ok ()

/-- The placeholders of a `RAISE` message as the claim counts them, scanning left to right: a
`%` immediately followed by `%` is one literal and consumes both, any other `%` (a trailing one
too) is a placeholder. -/
def raise_placeholders : List Char → Nat
  | [] => 0
  | '%' :: '%' :: rest => raise_placeholders rest
  | '%' :: rest => raise_placeholders rest + 1
  | _ :: rest => raise_placeholders rest

/-! ## `pl_gram.c`: `check_assignable`, `read_into_scalar_list` -/

/-- The function `check_assignable` (`pl_gram.c:5624-5651`) over the table `plpgsql_Datums`.
The first argument bounds the depth of the recursion through `recparentno`; the result is `none`
when that depth is exhausted or `recparentno` points outside the table. -/
def check_assignable : Nat → List PLpgSQL_datum → PLpgSQL_datum → Int →
    Option (Except PgError Unit)
  | 0, _, _, _ => none
  | depth + 1, Datums, datum, location =>
    if datum.dtype = PLPGSQL_DTYPE_VAR ∨ datum.dtype = PLPGSQL_DTYPE_PROMISE ∨
        datum.dtype = PLPGSQL_DTYPE_REC then
      if datum.isconst then
        some (Except.error (PgError.ereport "ERRCODE_ERROR_IN_ASSIGNMENT"
          "variable \"%s\" is declared CONSTANT" [ErrArg.str datum.refname] (some location)))
      else some (Except.ok ())
    else if datum.dtype = PLPGSQL_DTYPE_ROW then
      some (Except.ok ())
    else if datum.dtype = PLPGSQL_DTYPE_RECFIELD then
      match datum_at Datums datum.recparentno with
      | some parent => check_assignable depth Datums parent location
      | none => none
    else
      some (Except.error (PgError.elog "unrecognized dtype: %d" [ErrArg.int datum.dtype]))

/-- The datum reached from `datum` by following record-field parent links (`recparentno`) until
a datum that is not a record field; `none` when none is reached within the given number of
steps. -/
def follow_recparent : Nat → List PLpgSQL_datum → PLpgSQL_datum → Option PLpgSQL_datum
  | 0, _, _ => none
  | depth + 1, Datums, datum =>
    if datum.dtype = PLPGSQL_DTYPE_RECFIELD then
      match datum_at Datums datum.recparentno with
      | some parent => follow_recparent depth Datums parent
      | none => none
    else some datum

/-- The function `NameListToString` of the engine: the parts of a composite name joined by
dots. -/
def NameListToString (idents : List CString) : CString := List.intercalate ['.'] idents

/-- The function `NameOfDatum` (`pl_gram.c`, above `check_assignable`). -/
def NameOfDatum (wdatum : PLwdatum) : CString :=
  match wdatum.ident with
  | some ident => ident
  | none => NameListToString wdatum.idents

/-- The function `current_token_is_not_variable` (`pl_gram.c:4840-4849`) with the two routines
it calls: the error it raises for the current token `tok` with its `yylval` and `yylloc`. -/
def current_token_is_not_variable (tok : Int) (yylval : YYSTYPE) (yylloc : Int) : PgError :=
  if tok = T_WORD then
    PgError.ereport "ERRCODE_SYNTAX_ERROR" "\"%s\" is not a known variable"
      [ErrArg.str yylval.word] (some yylloc)
  else if tok = T_CWORD then
    PgError.ereport "ERRCODE_SYNTAX_ERROR" "\"%s\" is not a known variable"
      [ErrArg.str (NameListToString yylval.cword)] (some yylloc)
  else PgError.yyerror "syntax error"

/-- The row `read_into_scalar_list` builds (`PLpgSQL_row`); `rowtupdesc` is `NULL`. -/
structure PLpgSQL_row where
  dtype : Int
  dno : Int
  refname : CString
  lineno : Int
  nfields : Nat
  fieldnames : List CString
  varnos : List Int
  deriving DecidableEq, Repr

/-- An array after the store `a[i] = v`. -/
def array_store {α : Type} (a : Nat → α) (i : Nat) (v : α) : Nat → α :=
  fun j => if j = i then v else a j

/-- The locals of `read_into_scalar_list`: `nfields`, the arrays `fieldnames[1024]` and
`varnos[1024]`, and, for the record, the index of every store made into the two arrays so far. -/
structure IntoLocals where
  nfields : Nat
  fieldnames : Nat → CString
  varnos : Nat → Int
  stores : List Nat

/-- The two stores of the `T_DATUM` case (`pl_gram.c:5754-5755`):
`fieldnames[nfields] = NameOfDatum(...)` and `varnos[nfields++] = ...->dno`. -/
def into_store (l : IntoLocals) (wdatum : PLwdatum) : IntoLocals :=
  { nfields := l.nfields + 1,
    fieldnames := array_store l.fieldnames l.nfields (NameOfDatum wdatum),
    varnos := array_store l.varnos l.nfields wdatum.datum.dno,
    stores := l.stores ++ [l.nfields, l.nfields] }

/-- The `while` loop of `read_into_scalar_list` (`pl_gram.c:5733-5762`) followed by
`plpgsql_push_back_token` (`5768`).  The token list is what `yylex` will deliver, in order; at
its end `yylex` returns `0`.  The result is the locals at loop exit and the outcome: the tokens
still to be delivered (the pushed-back one first), an error, or `none` when `check_assignable`
has no result. -/
def into_loop (depth : Nat) (Datums : List PLpgSQL_datum) :
    List Token → IntoLocals → IntoLocals × Option (Except PgError (List Token))
  | [], l => (l, some (Except.ok []))
  | t :: ts, l =>
    if t.code = tok_of ',' then
      if l.nfields ≥ 1024 then
        (l, some (Except.error (PgError.ereport "ERRCODE_PROGRAM_LIMIT_EXCEEDED"
          "too many INTO variables specified" [] (some t.lloc))))
      else
        match ts with
        | [] => (l, some (Except.error (current_token_is_not_variable 0 t.lval t.lloc)))
        | t2 :: ts2 =>
          if t2.code = T_DATUM then
            match check_assignable depth Datums t2.lval.wdatum.datum t2.lloc with
            | none => (l, none)
            | some (Except.error e) => (l, some (Except.error e))
            | some (Except.ok _) =>
              if t2.lval.wdatum.datum.dtype = PLPGSQL_DTYPE_ROW ∨
                  t2.lval.wdatum.datum.dtype = PLPGSQL_DTYPE_REC then
                (l, some (Except.error (PgError.ereport "ERRCODE_SYNTAX_ERROR"
                  "\"%s\" is not a scalar variable" [ErrArg.str (NameOfDatum t2.lval.wdatum)]
                  (some t2.lloc))))
              else into_loop depth Datums ts2 (into_store l t2.lval.wdatum)
          else
            (l, some (Except.error (current_token_is_not_variable t2.code t2.lval t2.lloc)))
    else (l, some (Except.ok (t :: ts)))

/-- The function `read_into_scalar_list` (`pl_gram.c:5711-5787`).  `lineno_of` stands for
`plpgsql_location_to_lineno`; `plpgsql_adddatum` appends the row to `plpgsql_Datums` and gives
it the next `dno`.  The result is the indices of all stores made into `fieldnames` and `varnos`,
and the outcome: the row, the table and the tokens left, an error, or `none` when
`check_assignable` has no result. -/
def read_into_scalar_list (depth : Nat) (lineno_of : Int → Int) (Datums : List PLpgSQL_datum)
    (initial_name : CString) (initial_datum : PLpgSQL_datum) (initial_location : Int)
    (pending : List Token) :
    List Nat × Option (Except PgError (PLpgSQL_row × List PLpgSQL_datum × List Token)) :=
  match check_assignable depth Datums initial_datum initial_location with
  | none => ([], none)
  | some (Except.error e) => ([], some (Except.error e))
  | some (Except.ok _) =>
    let l0 : IntoLocals :=
      { nfields := 1,
        fieldnames := array_store (fun _ => []) 0 initial_name,
        varnos := array_store (fun _ => 0) 0 initial_datum.dno,
        stores := [0, 0] }
    match into_loop depth Datums pending l0 with
    | (l, none) => (l.stores, none)
    | (l, some (Except.error e)) => (l.stores, some (Except.error e))
    | (l, some (Except.ok rest)) =>
      let row : PLpgSQL_row :=
        { dtype := PLPGSQL_DTYPE_ROW,
          dno := Datums.length,
          refname := "(unnamed row)".toList,
          lineno := lineno_of initial_location,
          nfields := l.nfields,
          fieldnames := (List.range l.nfields).map l.fieldnames,
          varnos := (List.range l.nfields).map l.varnos }
      (l.stores, some (Except.ok (row,
        Datums ++ [{ dtype := row.dtype, dno := row.dno, refname := row.refname,
                     isconst := false, recparentno := 0 }], rest)))

/-- Whether the token is a variable the loop of `read_into_scalar_list` accepts: a `T_DATUM`
whose datum `check_assignable` passes and that is neither a row nor a record. -/
def into_var_ok (depth : Nat) (Datums : List PLpgSQL_datum) (t : Token) : Bool :=
  decide (t.code = T_DATUM) &&
  (match check_assignable depth Datums t.lval.wdatum.datum t.lloc with
   | some (Except.ok _) => true
   | _ => false) &&
  decide (t.lval.wdatum.datum.dtype ≠ PLPGSQL_DTYPE_ROW) &&
  decide (t.lval.wdatum.datum.dtype ≠ PLPGSQL_DTYPE_REC)

/-- The tokens of a list of `, variable` pairs, in order. -/
def into_tokens (pairs : List (Token × Token)) : List Token :=
  pairs.flatMap (fun pr => [pr.1, pr.2])

/-- A scalar variable token named `name` with datum number `dno`, at location `lloc`. -/
def var_token (name : CString) (dno : Int) (lloc : Int) : Token :=
  { code := T_DATUM,
    lval := { wdatum := { datum := { dtype := PLPGSQL_DTYPE_VAR, dno := dno, refname := name,
                                     isconst := false, recparentno := 0 },
                          ident := some name, quoted := false, idents := [] },
              word := [], cword := [] },
    lloc := lloc }

/-- A token without semantic value: code `code` at location `lloc`. -/
def plain_token (code : Int) (lloc : Int) : Token :=
  { code := code,
    lval := { wdatum := { datum := { dtype := 0, dno := 0, refname := [], isconst := false,
                                     recparentno := 0 },
                          ident := none, quoted := false, idents := [] },
              word := [], cword := [] },
    lloc := lloc }

/-- A table with a constant record at index `0` and a field of that record at index `1`. -/
def demo_datums : List PLpgSQL_datum :=
  [ { dtype := PLPGSQL_DTYPE_REC, dno := 0, refname := "r".toList, isconst := true,
      recparentno := 0 },
    { dtype := PLPGSQL_DTYPE_RECFIELD, dno := 1, refname := "f".toList, isconst := false,
      recparentno := 0 } ]

/-! ## `pl_gram.c`: `read_sql_construct` -/

/-- Parse mode `RAW_PARSE_PLPGSQL_EXPR` of `parser/parser.h`. -/
def RAW_PARSE_PLPGSQL_EXPR : Int := 2

/-- The expression `read_sql_construct` builds (`PLpgSQL_expr`): its text, its parse mode and
`target_param`; `plan` and `paramnos` are `NULL`. -/
structure PLpgSQL_expr where
  query : CString
  parseMode : Int
  target_param : Int
  deriving DecidableEq, Repr

/-- What one pass through the loop of `read_sql_construct` does: leave the loop (`break`), raise
an error, or go round again with the new `parenlevel`. -/
inductive SqlStep where
  | stop
  | fail (e : PgError)
  | next (parenlevel : Int)
  deriving DecidableEq, Repr

/-- Lines 4948-4963 of `pl_gram.c`: the check for the end of the function text or a semicolon,
made with `parenlevel` as the bracket handling left it. -/
def read_sql_end_check (expected : CString) (isexpression : Bool) (tok yylloc parenlevel : Int) :
    SqlStep :=
  if tok = 0 ∨ tok = tok_of ';' then
    if parenlevel ≠ 0 then
      SqlStep.fail (PgError.yyerror "mismatched parentheses")
    else if isexpression then
      SqlStep.fail (PgError.ereport "ERRCODE_SYNTAX_ERROR"
        "missing \"%s\" at end of SQL expression" [ErrArg.str expected] (some yylloc))
    else
      SqlStep.fail (PgError.ereport "ERRCODE_SYNTAX_ERROR"
        "missing \"%s\" at end of SQL statement" [ErrArg.str expected] (some yylloc))
  else SqlStep.next parenlevel

/-- Lines 4926-4963 of `pl_gram.c`: the body of the loop of `read_sql_construct` after
`tok = yylex()`, for the token `tok` at `yylloc` and the current `parenlevel`. -/
def read_sql_step (until1 until2 until3 : Int) (expected : CString) (isexpression : Bool)
    (tok yylloc parenlevel : Int) : SqlStep :=
  if tok = until1 ∧ parenlevel = 0 then SqlStep.stop
  else if tok = until2 ∧ parenlevel = 0 then SqlStep.stop
  else if tok = until3 ∧ parenlevel = 0 then SqlStep.stop
  else if tok = tok_of '(' ∨ tok = tok_of '[' then
    read_sql_end_check expected isexpression tok yylloc (parenlevel + 1)
  else if tok = tok_of ')' ∨ tok = tok_of ']' then
    if parenlevel - 1 < 0 then SqlStep.fail (PgError.yyerror "mismatched parentheses")
    else read_sql_end_check expected isexpression tok yylloc (parenlevel - 1)
  else read_sql_end_check expected isexpression tok yylloc parenlevel

/-- The loop of `read_sql_construct` (`pl_gram.c:4921-4964`).  The token list is what `yylex`
will deliver; at its end `yylex` returns `0` with `yylloc = eof_loc`, again and again.  The
result is the token that ended the loop, `yylloc`, `startlocation` and the tokens left; an
error; or `none` if the loop would go round for ever at the end of the input. -/
def read_sql_loop (until1 until2 until3 : Int) (expected : CString) (isexpression : Bool)
    (eof_loc : Int) :
    List Token → Int → Int → Option (Except PgError (Int × Int × Int × List Token))
  | [], parenlevel, startlocation =>
    match read_sql_step until1 until2 until3 expected isexpression 0 eof_loc parenlevel with
    | SqlStep.stop =>
      some (Except.ok (0, eof_loc, if startlocation < 0 then eof_loc else startlocation, []))
    | SqlStep.fail e => some (Except.error e)
    | SqlStep.next _ => none
  | t :: ts, parenlevel, startlocation =>
    match read_sql_step until1 until2 until3 expected isexpression t.code t.lloc parenlevel with
    | SqlStep.stop =>
      some (Except.ok (t.code, t.lloc, if startlocation < 0 then t.lloc else startlocation, ts))
    | SqlStep.fail e => some (Except.error e)
    | SqlStep.next parenlevel =>
      read_sql_loop until1 until2 until3 expected isexpression eof_loc ts parenlevel
        (if startlocation < 0 then t.lloc else startlocation)

/-- The function `scanner_isspace` of the engine's scanner support: space, tab, newline,
carriage return, form feed. -/
def scanner_isspace (c : Char) : Bool :=
  c = ' ' || c = '\t' || c = '\n' || c = '\r' || c = Char.ofNat 12

/-- The call `plpgsql_append_source_text(&ds, startlocation, endlocation)` on an empty `ds`:
the piece of the function text between the two locations. -/
def source_text (scanbuf : CString) (startlocation endlocation : Int) : CString :=
  (scanbuf.drop startlocation.toNat).take (endlocation - startlocation).toNat

/-- The trimming loop of `read_sql_construct` (`pl_gram.c:4984-4985`): drops trailing
whitespace. -/
def trim_trailing (ds : CString) : CString := (ds.reverse.dropWhile scanner_isspace).reverse

/-- The function `check_sql_expr` (`pl_gram.c:5843-5866`): with `plpgsql_check_syntax` set it
runs `raw_parser`, whose error, if it raises one, ends the call. -/
def check_sql_expr (check_syntax_flag : Bool) (raw_parser_fn : CString → Int → Option PgError)
    (stmt : CString) (parseMode : Int) : Option PgError :=
  if !check_syntax_flag then none else raw_parser_fn stmt parseMode

/-- The function `read_sql_construct` (`pl_gram.c:4880-5001`) on the function text `scanbuf`
and the tokens `pending` still to be delivered.  The result is the expression, `startlocation`
(stored at `*startloc`), the ending token (stored at `*endtoken`) and the tokens left; an error;
or `none` if the loop never ends. -/
def read_sql_construct (scanbuf : CString) (check_syntax_flag : Bool)
    (raw_parser_fn : CString → Int → Option PgError) (until1 until2 until3 : Int)
    (expected : CString) (parsemode : Int) (isexpression valid_sql trim : Bool)
    (pending : List Token) :
    Option (Except PgError (PLpgSQL_expr × Int × Int × List Token)) :=
  match read_sql_loop until1 until2 until3 expected isexpression scanbuf.length pending 0 (-1) with
  | none => none
  | some (Except.error e) => some (Except.error e)
  | some (Except.ok (tok, yylloc, startlocation, rest)) =>
    if startlocation ≥ yylloc then
      if isexpression then some (Except.error (PgError.yyerror "missing expression"))
      else some (Except.error (PgError.yyerror "missing SQL statement"))
    else
      let ds := source_text scanbuf startlocation yylloc
      let ds := if trim then trim_trailing ds else ds
      let expr : PLpgSQL_expr := { query := ds, parseMode := parsemode, target_param := -1 }
      if valid_sql then
        match check_sql_expr check_syntax_flag raw_parser_fn expr.query expr.parseMode with
        | some e => some (Except.error e)
        | none => some (Except.ok (expr, startlocation, tok, rest))
      else some (Except.ok (expr, startlocation, tok, rest))

/-- The call `read_sql_expression(until, expected)` (`pl_gram.c:4852-4858`). -/
def read_sql_expression (scanbuf : CString) (check_syntax_flag : Bool)
    (raw_parser_fn : CString → Int → Option PgError) (until1 : Int) (expected : CString)
    (pending : List Token) :
    Option (Except PgError (PLpgSQL_expr × Int × Int × List Token)) :=
  read_sql_construct scanbuf check_syntax_flag raw_parser_fn until1 0 0 expected
    RAW_PARSE_PLPGSQL_EXPR true true true pending

/-! ## What each shim computes -/

theorem vformat_root_path (R p : CString) :
    vformat "%s/%s".toList [.str R, .str p] = R ++ '/' :: p := by
  simp [vformat]

theorem new_events_append (s t : Proc W) (l : List Event) (ht : t.events = s.events ++ l) :
    new_events s t = l := by
  simp [new_events, ht]

theorem pglite_mkdir_syscall_eq (h : Sys W) (s : Proc W) (path : CString) (mode : Nat) :
    pglite_mkdir_syscall h s path mode =
      ({ s with world := (h.mkdir s.world (s.DataDir ++ '/' :: path) mode).world,
                errno := (h.mkdir s.world (s.DataDir ++ '/' :: path) mode).err.getD 0,
                heap := (s.brk, s.DataDir ++ '/' :: path) :: s.heap, brk := s.brk + 1,
                events := s.events ++ [Event.palloc s.brk (s.DataDir ++ '/' :: path),
                  Event.elog DEBUG1 ("pglite_mkdir: ".toList ++ (s.DataDir ++ '/' :: path) ++ ['\n']),
                  Event.mkdir (s.DataDir ++ '/' :: path) mode] },
       s.brk, (h.mkdir s.world (s.DataDir ++ '/' :: path) mode).ret) := by
  simp [pglite_mkdir_syscall, psprintf, elog, sys_mkdir, cstr, List.lookup, vformat]

theorem pglite_opendir_syscall_eq (h : Sys W) (s : Proc W) (path : CString) :
    pglite_opendir_syscall h s path =
      ({ s with world := (h.opendir s.world (s.DataDir ++ '/' :: path)).world,
                errno := (h.opendir s.world (s.DataDir ++ '/' :: path)).err.getD 0,
                heap := (s.brk, s.DataDir ++ '/' :: path) :: s.heap, brk := s.brk + 1,
                events := s.events ++ [Event.palloc s.brk (s.DataDir ++ '/' :: path),
                  Event.elog DEBUG1 ("pglite_opendir: ".toList ++ (s.DataDir ++ '/' :: path) ++ ['\n']),
                  Event.opendir (s.DataDir ++ '/' :: path)] },
       s.brk, (h.opendir s.world (s.DataDir ++ '/' :: path)).ret) := by
  simp [pglite_opendir_syscall, psprintf, elog, sys_opendir, cstr, List.lookup, vformat]

theorem pglite_stat_syscall_eq (h : Sys W) (s : Proc W) (path : CString) (buf : StatBuf) :
    pglite_stat_syscall h s path buf =
      ({ s with world := (h.stat s.world (s.DataDir ++ '/' :: path) buf).world,
                errno := (h.stat s.world (s.DataDir ++ '/' :: path) buf).err.getD 0,
                heap := (s.brk, s.DataDir ++ '/' :: path) :: s.heap, brk := s.brk + 1,
                events := s.events ++ [Event.palloc s.brk (s.DataDir ++ '/' :: path),
                  Event.elog DEBUG1 ("pglite_stat: ".toList ++ (s.DataDir ++ '/' :: path) ++ ['\n']),
                  Event.stat (s.DataDir ++ '/' :: path)] },
       s.brk, (h.stat s.world (s.DataDir ++ '/' :: path) buf).ret,
       (h.stat s.world (s.DataDir ++ '/' :: path) buf).buf) := by
  simp [pglite_stat_syscall, psprintf, elog, sys_stat, cstr, List.lookup, vformat]

theorem pglite_open_syscall_eq (h : Sys W) (s : Proc W) (path : CString) (flags : Int)
    (mode : Nat) :
    pglite_open_syscall h s path flags mode =
      ({ s with world := (h.sys_open s.world (s.DataDir ++ '/' :: path) flags mode).world,
                errno := (h.sys_open s.world (s.DataDir ++ '/' :: path) flags mode).err.getD 0,
                heap := (s.brk, s.DataDir ++ '/' :: path) :: s.heap, brk := s.brk + 1,
                events := s.events ++ [Event.palloc s.brk (s.DataDir ++ '/' :: path),
                  Event.elog DEBUG1 ("pglite_open: ".toList ++ (s.DataDir ++ '/' :: path) ++ ['\n']),
                  Event.sys_open (s.DataDir ++ '/' :: path) flags mode] },
       s.brk, (h.sys_open s.world (s.DataDir ++ '/' :: path) flags mode).ret) := by
  simp [pglite_open_syscall, psprintf, elog, sys_open, cstr, List.lookup, vformat]

theorem pglite_mkdir_eq (h : Sys W) (s : Proc W) (path : CString) (mode : Nat) :
    pglite_mkdir h s path mode =
      ({ s with world := (h.mkdir s.world (s.DataDir ++ '/' :: path) mode).world,
                errno := (h.mkdir s.world (s.DataDir ++ '/' :: path) mode).err.getD 0,
                heap := s.heap.filter (fun c => c.1 != s.brk), brk := s.brk + 1,
                events := s.events ++ [Event.palloc s.brk (s.DataDir ++ '/' :: path),
                  Event.elog DEBUG1 ("pglite_mkdir: ".toList ++ (s.DataDir ++ '/' :: path) ++ ['\n']),
                  Event.mkdir (s.DataDir ++ '/' :: path) mode, Event.pfree s.brk] },
       (h.mkdir s.world (s.DataDir ++ '/' :: path) mode).ret) := by
  simp [pglite_mkdir, pglite_mkdir_syscall_eq, pfree, List.filter]

theorem pglite_opendir_eq (h : Sys W) (s : Proc W) (path : CString) :
    pglite_opendir h s path =
      ({ s with world := (h.opendir s.world (s.DataDir ++ '/' :: path)).world,
                errno := (h.opendir s.world (s.DataDir ++ '/' :: path)).err.getD 0,
                heap := s.heap.filter (fun c => c.1 != s.brk), brk := s.brk + 1,
                events := s.events ++ [Event.palloc s.brk (s.DataDir ++ '/' :: path),
                  Event.elog DEBUG1 ("pglite_opendir: ".toList ++ (s.DataDir ++ '/' :: path) ++ ['\n']),
                  Event.opendir (s.DataDir ++ '/' :: path), Event.pfree s.brk] },
       (h.opendir s.world (s.DataDir ++ '/' :: path)).ret) := by
  simp [pglite_opendir, pglite_opendir_syscall_eq, pfree, List.filter]

theorem pglite_stat_eq (h : Sys W) (s : Proc W) (path : CString) (buf : StatBuf) :
    pglite_stat h s path buf =
      ({ s with world := (h.stat s.world (s.DataDir ++ '/' :: path) buf).world,
                errno := (h.stat s.world (s.DataDir ++ '/' :: path) buf).err.getD 0,
                heap := s.heap.filter (fun c => c.1 != s.brk), brk := s.brk + 1,
                events := s.events ++ [Event.palloc s.brk (s.DataDir ++ '/' :: path),
                  Event.elog DEBUG1 ("pglite_stat: ".toList ++ (s.DataDir ++ '/' :: path) ++ ['\n']),
                  Event.stat (s.DataDir ++ '/' :: path), Event.pfree s.brk] },
       (h.stat s.world (s.DataDir ++ '/' :: path) buf).ret,
       (h.stat s.world (s.DataDir ++ '/' :: path) buf).buf) := by
  simp [pglite_stat, pglite_stat_syscall_eq, pfree, List.filter]

theorem pglite_open_eq (h : Sys W) (s : Proc W) (path : CString) (flags : Int) (mode : Nat) :
    pglite_open h s path flags mode =
      ({ s with world := (h.sys_open s.world (s.DataDir ++ '/' :: path) flags mode).world,
                errno := (h.sys_open s.world (s.DataDir ++ '/' :: path) flags mode).err.getD 0,
                heap := s.heap.filter (fun c => c.1 != s.brk), brk := s.brk + 1,
                events := s.events ++ [Event.palloc s.brk (s.DataDir ++ '/' :: path),
                  Event.elog DEBUG1 ("pglite_open: ".toList ++ (s.DataDir ++ '/' :: path) ++ ['\n']),
                  Event.sys_open (s.DataDir ++ '/' :: path) flags mode, Event.pfree s.brk] },
       (h.sys_open s.world (s.DataDir ++ '/' :: path) flags mode).ret) := by
  simp [pglite_open, pglite_open_syscall_eq, pfree, List.filter]

/-! ## Path resolution -/

/-- Claim C1.  For every virtual root `R` (the value of `DataDir`) and every relative path `p`, each
of `pglite_mkdir`, `pglite_opendir`, `pglite_stat` and `pglite_open` makes one system call, and the
path it hands to it is exactly `R`, one slash, then `p`. -/
theorem shims_hand_root_slash_path (h : Sys W) (s : Proc W) (p : CString) (mode : Nat)
    (flags : Int) (buf : StatBuf) :
    syscall_paths (new_events s (pglite_mkdir h s p mode).1) = [s.DataDir ++ "/".toList ++ p] ∧
    syscall_paths (new_events s (pglite_opendir h s p).1) = [s.DataDir ++ "/".toList ++ p] ∧
    syscall_paths (new_events s (pglite_stat h s p buf).1) = [s.DataDir ++ "/".toList ++ p] ∧
    syscall_paths (new_events s (pglite_open h s p flags mode).1)
      = [s.DataDir ++ "/".toList ++ p] := by
  refine ⟨?_, ?_, ?_, ?_⟩
  · rw [pglite_mkdir_eq, new_events_append s _ _ rfl]
    simp [syscall_paths, Event.sysPath]
  · rw [pglite_opendir_eq, new_events_append s _ _ rfl]
    simp [syscall_paths, Event.sysPath]
  · rw [pglite_stat_eq, new_events_append s _ _ rfl]
    simp [syscall_paths, Event.sysPath]
  · rw [pglite_open_eq, new_events_append s _ _ rfl]
    simp [syscall_paths, Event.sysPath]

/-- Claim C2.  Containment: whatever the root `R` and the relative path `p` (so in particular for a
non-empty absolute `R` and a `p` free of escaping sequences), the path each shim resolves and
hands to its system call has `R` as its leading part; with root `/data`, the relative path
`base/PG_VERSION` is resolved to `/data/base/PG_VERSION`. -/
theorem resolved_path_starts_with_root (h : Sys W) (s : Proc W) (p : CString) (mode : Nat)
    (flags : Int) (buf : StatBuf) :
    (∃ q, syscall_paths (new_events s (pglite_mkdir h s p mode).1) = [q] ∧ s.DataDir <+: q) ∧
    (∃ q, syscall_paths (new_events s (pglite_opendir h s p).1) = [q] ∧ s.DataDir <+: q) ∧
    (∃ q, syscall_paths (new_events s (pglite_stat h s p buf).1) = [q] ∧ s.DataDir <+: q) ∧
    (∃ q, syscall_paths (new_events s (pglite_open h s p flags mode).1) = [q] ∧
      s.DataDir <+: q) ∧
    syscall_paths (new_events { s with DataDir := "/data".toList }
        (pglite_open h { s with DataDir := "/data".toList } "base/PG_VERSION".toList flags mode).1)
      = ["/data/base/PG_VERSION".toList] := by
  refine ⟨⟨s.DataDir ++ '/' :: p, ?_, '/' :: p, rfl⟩, ⟨s.DataDir ++ '/' :: p, ?_, '/' :: p, rfl⟩,
    ⟨s.DataDir ++ '/' :: p, ?_, '/' :: p, rfl⟩, ⟨s.DataDir ++ '/' :: p, ?_, '/' :: p, rfl⟩, ?_⟩
  · rw [pglite_mkdir_eq, new_events_append s _ _ rfl]
    simp [syscall_paths, Event.sysPath]
  · rw [pglite_opendir_eq, new_events_append s _ _ rfl]
    simp [syscall_paths, Event.sysPath]
  · rw [pglite_stat_eq, new_events_append s _ _ rfl]
    simp [syscall_paths, Event.sysPath]
  · rw [pglite_open_eq, new_events_append s _ _ rfl]
    simp [syscall_paths, Event.sysPath]
  · rw [pglite_open_eq, new_events_append _ _ _ rfl]
    simp [syscall_paths, Event.sysPath]

/-! ## Error relay -/

/-- Claim C3.  Error preservation under cleanup: for each of the four shims, whatever `pfree`
(and every other library routine) leaves in `errno`, the value returned and the `errno` the
caller finds on return are the value and the `errno` that held right after the system call
returned; this holds when the call failed and when it succeeded. -/
theorem result_and_errno_survive_cleanup (h : Sys W) (s : Proc W) (p : CString) (mode : Nat)
    (flags : Int) (buf : StatBuf) :
    ((pglite_mkdir h s p mode).2 = (pglite_mkdir_syscall h s p mode).2.2 ∧
      (pglite_mkdir h s p mode).1.errno = (pglite_mkdir_syscall h s p mode).1.errno) ∧
    ((pglite_opendir h s p).2 = (pglite_opendir_syscall h s p).2.2 ∧
      (pglite_opendir h s p).1.errno = (pglite_opendir_syscall h s p).1.errno) ∧
    ((pglite_stat h s p buf).2.1 = (pglite_stat_syscall h s p buf).2.2.1 ∧
      (pglite_stat h s p buf).1.errno = (pglite_stat_syscall h s p buf).1.errno) ∧
    ((pglite_open h s p flags mode).2 = (pglite_open_syscall h s p flags mode).2.2 ∧
      (pglite_open h s p flags mode).1.errno = (pglite_open_syscall h s p flags mode).1.errno) := by
  refine ⟨⟨?_, ?_⟩, ⟨?_, ?_⟩, ⟨?_, ?_⟩, ⟨?_, ?_⟩⟩ <;>
    simp [pglite_mkdir, pglite_opendir, pglite_stat, pglite_open]

/-- Claim C4.  Error transparency: fix the root `R = s.DataDir`; whenever `open` called directly
on the absolute path `R/p` with the same flags and mode reports an error number `e` (`ENOENT` when
`R/p` does not exist), `pglite_open(p, flags, mode)` returns the same value as the direct call and
leaves the same `errno`, namely `e`. -/
theorem pglite_open_error_transparent (h : Sys W) (s : Proc W) (p : CString) (flags : Int)
    (mode : Nat) (e : Int)
    (hfail : (h.sys_open s.world (s.DataDir ++ "/".toList ++ p) flags mode).err = some e) :
    (pglite_open h s p flags mode).2
        = (sys_open h s (s.DataDir ++ "/".toList ++ p) flags mode).2 ∧
    (pglite_open h s p flags mode).1.errno
        = (sys_open h s (s.DataDir ++ "/".toList ++ p) flags mode).1.errno ∧
    (pglite_open h s p flags mode).1.errno = e := by
  simp only [String.toList, List.append_assoc, List.singleton_append] at hfail
  rw [pglite_open_eq]
  simp [sys_open, hfail]

/-- Witness for C4: on the toy file system with root `/data` and no file at all, opening `missing`
through the shim and opening `/data/missing` directly both return `-1` with `ENOENT`. -/
theorem pglite_open_error_transparent_witness :
    (toyfs.sys_open (boot "/data".toList ([] : List CString)).world
        ((boot "/data".toList ([] : List CString)).DataDir ++ "/".toList ++ "missing".toList)
        0 0).err = some ENOENT ∧
    (pglite_open toyfs (boot "/data".toList []) "missing".toList 0 0).2 = -1 ∧
    (sys_open toyfs (boot "/data".toList []) "/data/missing".toList 0 0).2 = -1 ∧
    (pglite_open toyfs (boot "/data".toList []) "missing".toList 0 0).1.errno = ENOENT :=
  ⟨by decide, by decide, by decide,
   (pglite_open_error_transparent toyfs (boot "/data".toList []) "missing".toList 0 0 ENOENT
      (by decide)).2.2⟩

/-! ## Signal-mask shim: the result of `pqsigsetmask` -/

/-- Claim C5.  The claim says `pqsigsetmask` returns the success indicator `0` for every mask.
The body of `pqsigsetmask` holds no `return` statement: for every mask, the empty mask and the
all-bits-set mask included, the call writes one line to `stderr` and ends without returning a
value, so no `0` is returned. -/
theorem pqsigsetmask_returns_no_value (h : Sys W) (s : Proc W) (mask : Nat) :
    (pqsigsetmask h s mask).2 = none ∧ (pqsigsetmask h s mask).2 ≠ some 0 ∧
    (pqsigsetmask h s 0).2 = none ∧ (pqsigsetmask h s (2 ^ 32 - 1)).2 = none ∧
    new_events s (pqsigsetmask h s mask).1
      = [Event.stderr ("pqlite: pqsigsetmask: ".toList ++ hexdigits (mask % 2 ^ 32) ++ ['\n'])] := by
  refine ⟨rfl, by simp [pqsigsetmask], rfl, rfl, ?_⟩
  rw [new_events_append s _ _ rfl]
  simp [vformat]

/-! ## Startup-mode override -/

/-- Claim C6.  `pglite_set_bootstrap_processing_mode` sets the engine's global processing mode to
the bootstrap value, whatever the mode was before, and changes no other state. -/
theorem set_bootstrap_mode_writes_only_mode {σ : Type} (e : Engine σ) :
    (pglite_set_bootstrap_processing_mode e).Mode = ProcessingMode.BootstrapProcessing ∧
    (pglite_set_bootstrap_processing_mode e).observed = e.observed ∧
    (pglite_set_bootstrap_processing_mode e).rest = e.rest :=
  ⟨rfl, rfl, rfl⟩

/-- Claim C7.  Sequencing of the startup-mode override: when the override runs before the engine
reads the processing mode, the engine observes bootstrap; when it runs after the read, the mode
the engine observed is the one that held before the override call, and the call does not change
it. -/
theorem override_sequencing {σ : Type} (e : Engine σ) :
    (engine_read_mode (pglite_set_bootstrap_processing_mode e)).observed
      = some ProcessingMode.BootstrapProcessing ∧
    (pglite_set_bootstrap_processing_mode (engine_read_mode e)).observed = some e.Mode ∧
    (pglite_set_bootstrap_processing_mode (engine_read_mode e)).observed
      = (engine_read_mode e).observed :=
  ⟨rfl, rfl, rfl⟩

/-! ## The four shims as relays -/

/-- Claim C8.  `pglite_mkdir(p, mode)` makes exactly one system call, the real `mkdir` on the
resolved path `R/p` with exactly the given mode, and returns that call's result code unchanged,
on success and on failure alike; the file system is left as that call left it. -/
theorem pglite_mkdir_relays_mkdir (h : Sys W) (s : Proc W) (p : CString) (mode : Nat) :
    (new_events s (pglite_mkdir h s p mode).1).filter Event.isSyscall
      = [Event.mkdir (s.DataDir ++ "/".toList ++ p) mode] ∧
    (pglite_mkdir h s p mode).2 = (h.mkdir s.world (s.DataDir ++ "/".toList ++ p) mode).ret ∧
    (pglite_mkdir h s p mode).1.world
      = (h.mkdir s.world (s.DataDir ++ "/".toList ++ p) mode).world := by
  rw [pglite_mkdir_eq, new_events_append s _ _ rfl]
  simp [Event.isSyscall, Event.sysPath, List.filter]

/-- Claim C9.  `pglite_open(p, flags, mode)` makes exactly one system call, the real `open` on the
resolved path `R/p` with exactly the given flags and mode, and returns what that call returned
(the file descriptor or the negative failure indicator) unchanged. -/
theorem pglite_open_relays_open (h : Sys W) (s : Proc W) (p : CString) (flags : Int)
    (mode : Nat) :
    (new_events s (pglite_open h s p flags mode).1).filter Event.isSyscall
      = [Event.sys_open (s.DataDir ++ "/".toList ++ p) flags mode] ∧
    (pglite_open h s p flags mode).2
      = (h.sys_open s.world (s.DataDir ++ "/".toList ++ p) flags mode).ret ∧
    (pglite_open h s p flags mode).1.world
      = (h.sys_open s.world (s.DataDir ++ "/".toList ++ p) flags mode).world := by
  rw [pglite_open_eq, new_events_append s _ _ rfl]
  simp [Event.isSyscall, Event.sysPath, List.filter]

/-- Claim C10.  `pglite_stat(p, buf)` returns the result code of the real `stat` on the resolved
path `R/p`, called once on the caller's buffer, and on return the buffer holds exactly what that
call left in it (on success: what `stat` wrote for `R/p`); the shim writes nothing into it. -/
theorem pglite_stat_relays_stat (h : Sys W) (s : Proc W) (p : CString) (buf : StatBuf) :
    (new_events s (pglite_stat h s p buf).1).filter Event.isSyscall
      = [Event.stat (s.DataDir ++ "/".toList ++ p)] ∧
    (pglite_stat h s p buf).2.1 = (h.stat s.world (s.DataDir ++ "/".toList ++ p) buf).ret ∧
    (pglite_stat h s p buf).2.2 = (h.stat s.world (s.DataDir ++ "/".toList ++ p) buf).buf := by
  rw [pglite_stat_eq, new_events_append s _ _ rfl]
  simp [Event.isSyscall, Event.sysPath, List.filter]

/-- Claim C11.  `pglite_opendir(p)` makes exactly one system call, the real `opendir` on the
resolved path `R/p`, and returns the directory-stream handle that call produced; it returns
`NULL` (`0`) exactly when that call returned `NULL`. -/
theorem pglite_opendir_relays_opendir (h : Sys W) (s : Proc W) (p : CString) :
    (new_events s (pglite_opendir h s p).1).filter Event.isSyscall
      = [Event.opendir (s.DataDir ++ "/".toList ++ p)] ∧
    (pglite_opendir h s p).2 = (h.opendir s.world (s.DataDir ++ "/".toList ++ p)).ret ∧
    ((pglite_opendir h s p).2 = 0 ↔
      (h.opendir s.world (s.DataDir ++ "/".toList ++ p)).ret = 0) := by
  rw [pglite_opendir_eq, new_events_append s _ _ rfl]
  simp [Event.isSyscall, Event.sysPath, List.filter]

/-! ## Signal-mask shim: the three signal sets -/

/-- Counterexample to C12 as stated: started with `UnBlockSig = 1`, `BlockSig = 2` and
`StartupBlockSig = 4`, `pqinitmask` returns with the three sets still holding `1`, `2` and `4`;
none of them is empty. -/
theorem pqinitmask_leaves_nonempty_sets :
    sigsets (pqinitmask { boot "/data".toList () with
        UnBlockSig := 1, BlockSig := 2, StartupBlockSig := 4 }) = (1, 2, 4) ∧
    ¬ (∀ s : Proc Unit, sigsets (pqinitmask s) = (empty_sigset, empty_sigset, empty_sigset)) := by
  refine ⟨rfl, fun hall => ?_⟩
  have hbad := hall { boot "/data".toList () with
    UnBlockSig := 1, BlockSig := 2, StartupBlockSig := 4 }
  simp [sigsets, pqinitmask, empty_sigset] at hbad

/-- Claim C12, amended.  `pqinitmask` writes none of the three signal sets: after it returns each
of `UnBlockSig`, `BlockSig` and `StartupBlockSig` holds the value it held before the call, and
the whole process state is as before.  So the sets are in the empty configuration after the call
when they were before it, as they are in the zero-initialised state at process start. -/
theorem pqinitmask_keeps_sets (s : Proc W) (R : CString) (w : W) :
    pqinitmask s = s ∧ sigsets (pqinitmask s) = sigsets s ∧
    sigsets (pqinitmask (boot R w)) = (empty_sigset, empty_sigset, empty_sigset) :=
  ⟨rfl, rfl, rfl⟩

/-- Claim C13.  Idempotent initialization: from every starting state, calling `pqinitmask` twice
in sequence leaves `UnBlockSig`, `BlockSig` and `StartupBlockSig` (and the whole state) equal to
what a single call leaves. -/
theorem pqinitmask_twice_is_once (s : Proc W) :
    sigsets (pqinitmask (pqinitmask s)) = sigsets (pqinitmask s) ∧
    pqinitmask (pqinitmask s) = pqinitmask s :=
  ⟨rfl, rfl⟩

/-- Claim C14.  `pqsigsetmask` performs no masking: for every requested mask and every prior
state, `UnBlockSig`, `BlockSig` and `StartupBlockSig` have the same values after the call as
before it. -/
theorem pqsigsetmask_keeps_sets (h : Sys W) (s : Proc W) (mask : Nat) :
    (pqsigsetmask h s mask).1.UnBlockSig = s.UnBlockSig ∧
    (pqsigsetmask h s mask).1.BlockSig = s.BlockSig ∧
    (pqsigsetmask h s mask).1.StartupBlockSig = s.StartupBlockSig :=
  ⟨rfl, rfl, rfl⟩

/-! ## Tracing -/

/-- Claim C15.  Every call of `pglite_mkdir`, `pglite_opendir`, `pglite_stat` or `pglite_open`
emits exactly one diagnostic record; it is at severity `DEBUG1`, its text is the operation's name,
a colon and the resolved path `R/p`, and it is emitted before the system call is made. -/
theorem one_debug_record_before_syscall (h : Sys W) (s : Proc W) (p : CString) (mode : Nat)
    (flags : Int) (buf : StatBuf) :
    ((new_events s (pglite_mkdir h s p mode).1).filter Event.isElog
        = [Event.elog DEBUG1
            ("pglite_mkdir: ".toList ++ (s.DataDir ++ "/".toList ++ p) ++ "\n".toList)] ∧
      Event.elog DEBUG1 ("pglite_mkdir: ".toList ++ (s.DataDir ++ "/".toList ++ p) ++ "\n".toList)
        ∈ (new_events s (pglite_mkdir h s p mode).1).takeWhile (fun e => !e.isSyscall)) ∧
    ((new_events s (pglite_opendir h s p).1).filter Event.isElog
        = [Event.elog DEBUG1
            ("pglite_opendir: ".toList ++ (s.DataDir ++ "/".toList ++ p) ++ "\n".toList)] ∧
      Event.elog DEBUG1
          ("pglite_opendir: ".toList ++ (s.DataDir ++ "/".toList ++ p) ++ "\n".toList)
        ∈ (new_events s (pglite_opendir h s p).1).takeWhile (fun e => !e.isSyscall)) ∧
    ((new_events s (pglite_stat h s p buf).1).filter Event.isElog
        = [Event.elog DEBUG1
            ("pglite_stat: ".toList ++ (s.DataDir ++ "/".toList ++ p) ++ "\n".toList)] ∧
      Event.elog DEBUG1 ("pglite_stat: ".toList ++ (s.DataDir ++ "/".toList ++ p) ++ "\n".toList)
        ∈ (new_events s (pglite_stat h s p buf).1).takeWhile (fun e => !e.isSyscall)) ∧
    ((new_events s (pglite_open h s p flags mode).1).filter Event.isElog
        = [Event.elog DEBUG1
            ("pglite_open: ".toList ++ (s.DataDir ++ "/".toList ++ p) ++ "\n".toList)] ∧
      Event.elog DEBUG1 ("pglite_open: ".toList ++ (s.DataDir ++ "/".toList ++ p) ++ "\n".toList)
        ∈ (new_events s (pglite_open h s p flags mode).1).takeWhile (fun e => !e.isSyscall)) := by
  refine ⟨?_, ?_, ?_, ?_⟩
  · rw [pglite_mkdir_eq, new_events_append s _ _ rfl]
    simp [Event.isElog, Event.isSyscall, Event.sysPath, List.filter, List.takeWhile]
  · rw [pglite_opendir_eq, new_events_append s _ _ rfl]
    simp [Event.isElog, Event.isSyscall, Event.sysPath, List.filter, List.takeWhile]
  · rw [pglite_stat_eq, new_events_append s _ _ rfl]
    simp [Event.isElog, Event.isSyscall, Event.sysPath, List.filter, List.takeWhile]
  · rw [pglite_open_eq, new_events_append s _ _ rfl]
    simp [Event.isElog, Event.isSyscall, Event.sysPath, List.filter, List.takeWhile]

/-- Claim C16.  Tracing cannot affect the outcome: for each of the four shims, two runs from the
same state that differ only in what the diagnostic emission leaves in `errno` (`f` in one run,
`g` in the other) return the same value, leave the same `errno` for the caller and leave the same
file system. -/
theorem tracing_cannot_affect_outcome (h : Sys W) (f g : Int → Int) (s : Proc W) (p : CString)
    (mode : Nat) (flags : Int) (buf : StatBuf) :
    ((pglite_mkdir { h with elog_errno := f } s p mode).2
        = (pglite_mkdir { h with elog_errno := g } s p mode).2 ∧
      (pglite_mkdir { h with elog_errno := f } s p mode).1.errno
        = (pglite_mkdir { h with elog_errno := g } s p mode).1.errno ∧
      (pglite_mkdir { h with elog_errno := f } s p mode).1.world
        = (pglite_mkdir { h with elog_errno := g } s p mode).1.world) ∧
    ((pglite_opendir { h with elog_errno := f } s p).2
        = (pglite_opendir { h with elog_errno := g } s p).2 ∧
      (pglite_opendir { h with elog_errno := f } s p).1.errno
        = (pglite_opendir { h with elog_errno := g } s p).1.errno ∧
      (pglite_opendir { h with elog_errno := f } s p).1.world
        = (pglite_opendir { h with elog_errno := g } s p).1.world) ∧
    ((pglite_stat { h with elog_errno := f } s p buf).2
        = (pglite_stat { h with elog_errno := g } s p buf).2 ∧
      (pglite_stat { h with elog_errno := f } s p buf).1.errno
        = (pglite_stat { h with elog_errno := g } s p buf).1.errno ∧
      (pglite_stat { h with elog_errno := f } s p buf).1.world
        = (pglite_stat { h with elog_errno := g } s p buf).1.world) ∧
    ((pglite_open { h with elog_errno := f } s p flags mode).2
        = (pglite_open { h with elog_errno := g } s p flags mode).2 ∧
      (pglite_open { h with elog_errno := f } s p flags mode).1.errno
        = (pglite_open { h with elog_errno := g } s p flags mode).1.errno ∧
      (pglite_open { h with elog_errno := f } s p flags mode).1.world
        = (pglite_open { h with elog_errno := g } s p flags mode).1.world) := by
  simp [pglite_mkdir_eq, pglite_opendir_eq, pglite_stat_eq, pglite_open_eq]

/-! ## The resolved-path buffer -/

theorem lookup_filter_self (a : Nat) (l : List (Nat × CString)) :
    (l.filter (fun c => c.1 != a)).lookup a = none := by
  simp only [List.lookup_eq_none_iff, List.mem_filter]
  rintro ⟨k, v⟩ ⟨_, hk⟩
  simp only [bne_iff_ne, ne_eq] at hk ⊢
  exact fun heq => hk heq.symm

theorem filter_brk_of_wf (s : Proc W) (hwf : heap_wf s = true) :
    s.heap.filter (fun c => c.1 != s.brk) = s.heap := by
  rw [List.filter_eq_self]
  intro c hc
  have hlt : c.1 < s.brk := by
    have hall := List.all_eq_true.mp hwf c hc
    simpa using hall
  simp only [bne_iff_ne, ne_eq]
  omega

theorem lookup_brk_of_wf (s : Proc W) (hwf : heap_wf s = true) :
    s.heap.lookup s.brk = none := by
  rw [← filter_brk_of_wf s hwf]
  exact lookup_filter_self s.brk s.heap

theorem heap_wf_boot (R : CString) (w : W) : heap_wf (boot R w) = true := rfl

theorem heap_wf_after_shims (h : Sys W) (s : Proc W) (p : CString) (mode : Nat) (flags : Int)
    (buf : StatBuf) (hwf : heap_wf s = true) :
    heap_wf (pglite_mkdir h s p mode).1 = true ∧ heap_wf (pglite_opendir h s p).1 = true ∧
    heap_wf (pglite_stat h s p buf).1 = true ∧ heap_wf (pglite_open h s p flags mode).1 = true := by
  have hf := filter_brk_of_wf s hwf
  have hall : s.heap.all (fun c => decide (c.1 < s.brk + 1)) = true := by
    rw [List.all_eq_true]
    intro c hc
    have hlt := List.all_eq_true.mp hwf c hc
    simp only [decide_eq_true_eq] at hlt ⊢
    omega
  refine ⟨?_, ?_, ?_, ?_⟩
  · rw [pglite_mkdir_eq]
    simpa [heap_wf, hf] using hall
  · rw [pglite_opendir_eq]
    simpa [heap_wf, hf] using hall
  · rw [pglite_stat_eq]
    simpa [heap_wf, hf] using hall
  · rw [pglite_open_eq]
    simpa [heap_wf, hf] using hall

/-- Claim C17.  Each call of a filesystem shim allocates one buffer, holding the resolved path,
and releases that same buffer exactly once; the release does not come before the system call, so
it follows the call's return, and on return the buffer is no longer live.  The system call's
outcome is arbitrary here, so this holds when it succeeds and when it fails. -/
theorem buffer_allocated_once_released_once (h : Sys W) (s : Proc W) (p : CString) (mode : Nat)
    (flags : Int) (buf : StatBuf) :
    ((new_events s (pglite_mkdir h s p mode).1).filter Event.isMem
        = [Event.palloc s.brk (s.DataDir ++ "/".toList ++ p), Event.pfree s.brk] ∧
      Event.pfree s.brk
        ∉ (new_events s (pglite_mkdir h s p mode).1).takeWhile (fun e => !e.isSyscall) ∧
      (pglite_mkdir h s p mode).1.heap.lookup s.brk = none) ∧
    ((new_events s (pglite_opendir h s p).1).filter Event.isMem
        = [Event.palloc s.brk (s.DataDir ++ "/".toList ++ p), Event.pfree s.brk] ∧
      Event.pfree s.brk
        ∉ (new_events s (pglite_opendir h s p).1).takeWhile (fun e => !e.isSyscall) ∧
      (pglite_opendir h s p).1.heap.lookup s.brk = none) ∧
    ((new_events s (pglite_stat h s p buf).1).filter Event.isMem
        = [Event.palloc s.brk (s.DataDir ++ "/".toList ++ p), Event.pfree s.brk] ∧
      Event.pfree s.brk
        ∉ (new_events s (pglite_stat h s p buf).1).takeWhile (fun e => !e.isSyscall) ∧
      (pglite_stat h s p buf).1.heap.lookup s.brk = none) ∧
    ((new_events s (pglite_open h s p flags mode).1).filter Event.isMem
        = [Event.palloc s.brk (s.DataDir ++ "/".toList ++ p), Event.pfree s.brk] ∧
      Event.pfree s.brk
        ∉ (new_events s (pglite_open h s p flags mode).1).takeWhile (fun e => !e.isSyscall) ∧
      (pglite_open h s p flags mode).1.heap.lookup s.brk = none) := by
  refine ⟨?_, ?_, ?_, ?_⟩
  · rw [pglite_mkdir_eq, new_events_append s _ _ rfl]
    simp [Event.isMem, Event.isSyscall, Event.sysPath, List.filter, List.takeWhile,
      lookup_filter_self]
  · rw [pglite_opendir_eq, new_events_append s _ _ rfl]
    simp [Event.isMem, Event.isSyscall, Event.sysPath, List.filter, List.takeWhile,
      lookup_filter_self]
  · rw [pglite_stat_eq, new_events_append s _ _ rfl]
    simp [Event.isMem, Event.isSyscall, Event.sysPath, List.filter, List.takeWhile,
      lookup_filter_self]
  · rw [pglite_open_eq, new_events_append s _ _ rfl]
    simp [Event.isMem, Event.isSyscall, Event.sysPath, List.filter, List.takeWhile,
      lookup_filter_self]

/-- Claim C18.  Failures are not retried: each call of a filesystem shim makes its system call
exactly once, whatever that call's outcome, and hands the caller that one call's return value
together with the error number it stored (`0` when it stored none). -/
theorem syscall_made_exactly_once (h : Sys W) (s : Proc W) (p : CString) (mode : Nat)
    (flags : Int) (buf : StatBuf) :
    ((new_events s (pglite_mkdir h s p mode).1).countP Event.isSyscall = 1 ∧
      (pglite_mkdir h s p mode).2 = (h.mkdir s.world (s.DataDir ++ "/".toList ++ p) mode).ret ∧
      (pglite_mkdir h s p mode).1.errno
        = (h.mkdir s.world (s.DataDir ++ "/".toList ++ p) mode).err.getD 0) ∧
    ((new_events s (pglite_opendir h s p).1).countP Event.isSyscall = 1 ∧
      (pglite_opendir h s p).2 = (h.opendir s.world (s.DataDir ++ "/".toList ++ p)).ret ∧
      (pglite_opendir h s p).1.errno
        = (h.opendir s.world (s.DataDir ++ "/".toList ++ p)).err.getD 0) ∧
    ((new_events s (pglite_stat h s p buf).1).countP Event.isSyscall = 1 ∧
      (pglite_stat h s p buf).2.1 = (h.stat s.world (s.DataDir ++ "/".toList ++ p) buf).ret ∧
      (pglite_stat h s p buf).1.errno
        = (h.stat s.world (s.DataDir ++ "/".toList ++ p) buf).err.getD 0) ∧
    ((new_events s (pglite_open h s p flags mode).1).countP Event.isSyscall = 1 ∧
      (pglite_open h s p flags mode).2
        = (h.sys_open s.world (s.DataDir ++ "/".toList ++ p) flags mode).ret ∧
      (pglite_open h s p flags mode).1.errno
        = (h.sys_open s.world (s.DataDir ++ "/".toList ++ p) flags mode).err.getD 0) := by
  refine ⟨?_, ?_, ?_, ?_⟩
  · rw [pglite_mkdir_eq, new_events_append s _ _ rfl]
    simp [Event.isSyscall, Event.sysPath, List.countP_cons]
  · rw [pglite_opendir_eq, new_events_append s _ _ rfl]
    simp [Event.isSyscall, Event.sysPath, List.countP_cons]
  · rw [pglite_stat_eq, new_events_append s _ _ rfl]
    simp [Event.isSyscall, Event.sysPath, List.countP_cons]
  · rw [pglite_open_eq, new_events_append s _ _ rfl]
    simp [Event.isSyscall, Event.sysPath, List.countP_cons]

/-- Claim C19.  None of the four shims modifies the virtual root or the caller's strings: on a
well-formed heap, `DataDir` and every chunk that was live before the call (the one at `q` holding
the caller's path among them) hold the same bytes after the call as before it, and the resolved
path is written to the chunk at `brk`, an address that was not live before the call. -/
theorem shims_keep_root_and_caller_strings (h : Sys W) (s : Proc W) (p : CString) (mode : Nat)
    (flags : Int) (buf : StatBuf) (q : Nat) (hwf : heap_wf s = true) :
    ((pglite_mkdir h s p mode).1.DataDir = s.DataDir ∧
      (pglite_mkdir h s p mode).1.heap = s.heap ∧
      cstr (pglite_mkdir h s p mode).1 q = cstr s q) ∧
    ((pglite_opendir h s p).1.DataDir = s.DataDir ∧
      (pglite_opendir h s p).1.heap = s.heap ∧
      cstr (pglite_opendir h s p).1 q = cstr s q) ∧
    ((pglite_stat h s p buf).1.DataDir = s.DataDir ∧
      (pglite_stat h s p buf).1.heap = s.heap ∧
      cstr (pglite_stat h s p buf).1 q = cstr s q) ∧
    ((pglite_open h s p flags mode).1.DataDir = s.DataDir ∧
      (pglite_open h s p flags mode).1.heap = s.heap ∧
      cstr (pglite_open h s p flags mode).1 q = cstr s q) ∧
    s.heap.lookup s.brk = none ∧
    ((pglite_mkdir_syscall h s p mode).2.1 = s.brk ∧
      cstr (pglite_mkdir_syscall h s p mode).1 s.brk = s.DataDir ++ "/".toList ++ p) ∧
    ((pglite_opendir_syscall h s p).2.1 = s.brk ∧
      cstr (pglite_opendir_syscall h s p).1 s.brk = s.DataDir ++ "/".toList ++ p) ∧
    ((pglite_stat_syscall h s p buf).2.1 = s.brk ∧
      cstr (pglite_stat_syscall h s p buf).1 s.brk = s.DataDir ++ "/".toList ++ p) ∧
    ((pglite_open_syscall h s p flags mode).2.1 = s.brk ∧
      cstr (pglite_open_syscall h s p flags mode).1 s.brk = s.DataDir ++ "/".toList ++ p) := by
  have hf := filter_brk_of_wf s hwf
  refine ⟨?_, ?_, ?_, ?_, lookup_brk_of_wf s hwf, ?_, ?_, ?_, ?_⟩
  · simp [pglite_mkdir_eq, hf, cstr]
  · simp [pglite_opendir_eq, hf, cstr]
  · simp [pglite_stat_eq, hf, cstr]
  · simp [pglite_open_eq, hf, cstr]
  · rw [pglite_mkdir_syscall_eq]
    simp [cstr, List.lookup]
  · rw [pglite_opendir_syscall_eq]
    simp [cstr, List.lookup]
  · rw [pglite_stat_syscall_eq]
    simp [cstr, List.lookup]
  · rw [pglite_open_syscall_eq]
    simp [cstr, List.lookup]

/-- Witness for C19: on `demo_proc` the heap is well formed, and after `pglite_open` of the path
kept at address `1` the root is still `/data`, the caller's chunk still holds `base`, and the
resolved path `/data/base` was written at the fresh address `2`. -/
theorem shims_keep_root_and_caller_strings_witness :
    heap_wf demo_proc = true ∧
    (pglite_open toyfs demo_proc (cstr demo_proc 1) 0 0).1.DataDir = "/data".toList ∧
    cstr (pglite_open toyfs demo_proc (cstr demo_proc 1) 0 0).1 1 = "base".toList ∧
    cstr (pglite_open_syscall toyfs demo_proc (cstr demo_proc 1) 0 0).1 2
      = "/data/base".toList := by
  have hc := shims_keep_root_and_caller_strings toyfs demo_proc (cstr demo_proc 1) 0 0 [] 1
    (by decide)
  exact ⟨by decide, hc.2.2.2.1.1, hc.2.2.2.1.2.2, hc.2.2.2.2.2.2.2.2.2⟩

/-- Claim C20.  The resolved path is a function of the current virtual root and `p` only, computed
on every call: two calls with the same root and the same `p` resolve to equal strings, whatever
else differs between them (host, remaining state, other arguments); and a call made after the root
has changed to `R2` resolves against `R2`, not against the root of the earlier call. -/
theorem resolution_depends_on_root_and_path_only (h1 h2 : Sys W) (s1 s2 : Proc W) (p : CString)
    (m1 m2 : Nat) (f1 f2 : Int) (b1 b2 : StatBuf) (R2 : CString)
    (hroot : s1.DataDir = s2.DataDir) :
    (syscall_paths (new_events s1 (pglite_mkdir h1 s1 p m1).1)
        = syscall_paths (new_events s2 (pglite_mkdir h2 s2 p m2).1) ∧
      syscall_paths (new_events s1 (pglite_opendir h1 s1 p).1)
        = syscall_paths (new_events s2 (pglite_opendir h2 s2 p).1) ∧
      syscall_paths (new_events s1 (pglite_stat h1 s1 p b1).1)
        = syscall_paths (new_events s2 (pglite_stat h2 s2 p b2).1) ∧
      syscall_paths (new_events s1 (pglite_open h1 s1 p f1 m1).1)
        = syscall_paths (new_events s2 (pglite_open h2 s2 p f2 m2).1)) ∧
    (syscall_paths (new_events { (pglite_mkdir h1 s1 p m1).1 with DataDir := R2 }
        (pglite_mkdir h1 { (pglite_mkdir h1 s1 p m1).1 with DataDir := R2 } p m1).1)
        = [R2 ++ "/".toList ++ p] ∧
      syscall_paths (new_events { (pglite_opendir h1 s1 p).1 with DataDir := R2 }
        (pglite_opendir h1 { (pglite_opendir h1 s1 p).1 with DataDir := R2 } p).1)
        = [R2 ++ "/".toList ++ p] ∧
      syscall_paths (new_events { (pglite_stat h1 s1 p b1).1 with DataDir := R2 }
        (pglite_stat h1 { (pglite_stat h1 s1 p b1).1 with DataDir := R2 } p b1).1)
        = [R2 ++ "/".toList ++ p] ∧
      syscall_paths (new_events { (pglite_open h1 s1 p f1 m1).1 with DataDir := R2 }
        (pglite_open h1 { (pglite_open h1 s1 p f1 m1).1 with DataDir := R2 } p f1 m1).1)
        = [R2 ++ "/".toList ++ p]) := by
  refine ⟨⟨?_, ?_, ?_, ?_⟩, ?_, ?_, ?_, ?_⟩
  · rw [pglite_mkdir_eq, pglite_mkdir_eq, new_events_append s1 _ _ rfl,
      new_events_append s2 _ _ rfl]
    simp [syscall_paths, Event.sysPath, hroot]
  · rw [pglite_opendir_eq, pglite_opendir_eq, new_events_append s1 _ _ rfl,
      new_events_append s2 _ _ rfl]
    simp [syscall_paths, Event.sysPath, hroot]
  · rw [pglite_stat_eq, pglite_stat_eq, new_events_append s1 _ _ rfl,
      new_events_append s2 _ _ rfl]
    simp [syscall_paths, Event.sysPath, hroot]
  · rw [pglite_open_eq, pglite_open_eq, new_events_append s1 _ _ rfl,
      new_events_append s2 _ _ rfl]
    simp [syscall_paths, Event.sysPath, hroot]
  · rw [pglite_mkdir_eq h1 { (pglite_mkdir h1 s1 p m1).1 with DataDir := R2 },
      new_events_append _ _ _ rfl]
    simp [syscall_paths, Event.sysPath]
  · rw [pglite_opendir_eq h1 { (pglite_opendir h1 s1 p).1 with DataDir := R2 },
      new_events_append _ _ _ rfl]
    simp [syscall_paths, Event.sysPath]
  · rw [pglite_stat_eq h1 { (pglite_stat h1 s1 p b1).1 with DataDir := R2 },
      new_events_append _ _ _ rfl]
    simp [syscall_paths, Event.sysPath]
  · rw [pglite_open_eq h1 { (pglite_open h1 s1 p f1 m1).1 with DataDir := R2 },
      new_events_append _ _ _ rfl]
    simp [syscall_paths, Event.sysPath]

/-- Witness for C20: two processes with root `/data` but different file systems resolve `x` to
the same path, and once the root has become `/mnt` the next call resolves `x` to `/mnt/x`. -/
theorem resolution_depends_on_root_and_path_only_witness :
    (boot "/data".toList ([] : List CString)).DataDir
      = (boot "/data".toList ["/data/x".toList]).DataDir ∧
    syscall_paths (new_events (boot "/data".toList ([] : List CString))
        (pglite_open toyfs (boot "/data".toList []) "x".toList 0 0).1)
      = syscall_paths (new_events (boot "/data".toList ["/data/x".toList])
        (pglite_open toyfs (boot "/data".toList ["/data/x".toList]) "x".toList 1 420).1) ∧
    syscall_paths (new_events
        { (pglite_open toyfs (boot "/data".toList []) "x".toList 0 0).1 with
          DataDir := "/mnt".toList }
        (pglite_open toyfs
          { (pglite_open toyfs (boot "/data".toList []) "x".toList 0 0).1 with
            DataDir := "/mnt".toList } "x".toList 0 0).1)
      = ["/mnt/x".toList] := by
  have hc := resolution_depends_on_root_and_path_only toyfs toyfs (boot "/data".toList [])
    (boot "/data".toList ["/data/x".toList]) "x".toList 0 420 0 1 [] [] "/mnt".toList rfl
  exact ⟨rfl, hc.1.2.2.2, hc.2.2.2.2⟩

/-! ## No normalisation, and the shape of every resolved path -/

/-- Claim C21.  No normalization: the resolver does not collapse `..` segments.  With root
`R = /data` and relative path `p = ../etc/passwd` the path handed to the system call is
`/data/../etc/passwd`, with the `..` still in it; once its `..` segments are collapsed lexically
it names `/etc/passwd`, a location that is not under `/data`. -/
theorem dotdot_escapes_root (h : Sys W) (s : Proc W) (flags : Int) (mode : Nat) :
    syscall_paths (new_events { s with DataDir := "/data".toList }
        (pglite_open h { s with DataDir := "/data".toList } "../etc/passwd".toList flags mode).1)
      = ["/data/../etc/passwd".toList] ∧
    "..".toList ∈ split_slash "/data/../etc/passwd".toList ∧
    collapse_dotdot "/data/../etc/passwd".toList = ["etc".toList, "passwd".toList] ∧
    collapse_dotdot "/data".toList = ["data".toList] ∧
    ¬ (collapse_dotdot "/data".toList <+: collapse_dotdot "/data/../etc/passwd".toList) := by
  refine ⟨?_, by decide, by decide, by decide, ?_⟩
  · rw [pglite_open_eq, new_events_append _ _ _ rfl]
    simp [syscall_paths, Event.sysPath]
  · have h1 : collapse_dotdot "/data/../etc/passwd".toList = ["etc".toList, "passwd".toList] := by
      decide
    have h2 : collapse_dotdot "/data".toList = ["data".toList] := by decide
    rw [h1, h2]
    rintro ⟨t, ht⟩
    simp at ht

/-- Claim C24.  For every relative path `p` without exception, the string each shim resolves
begins with `R` and a slash and has length `|R| + 1 + |p|`; the empty `p` is resolved to `R/`, and
the absolute-looking `/etc/passwd` is resolved to `R//etc/passwd`, not passed through. -/
theorem resolved_path_shape (h : Sys W) (s : Proc W) (p : CString) (mode : Nat) (flags : Int)
    (buf : StatBuf) :
    (∃ q, syscall_paths (new_events s (pglite_mkdir h s p mode).1) = [q] ∧
      s.DataDir ++ "/".toList <+: q ∧ q.length = s.DataDir.length + 1 + p.length) ∧
    (∃ q, syscall_paths (new_events s (pglite_opendir h s p).1) = [q] ∧
      s.DataDir ++ "/".toList <+: q ∧ q.length = s.DataDir.length + 1 + p.length) ∧
    (∃ q, syscall_paths (new_events s (pglite_stat h s p buf).1) = [q] ∧
      s.DataDir ++ "/".toList <+: q ∧ q.length = s.DataDir.length + 1 + p.length) ∧
    (∃ q, syscall_paths (new_events s (pglite_open h s p flags mode).1) = [q] ∧
      s.DataDir ++ "/".toList <+: q ∧ q.length = s.DataDir.length + 1 + p.length) ∧
    syscall_paths (new_events s (pglite_open h s [] flags mode).1) = [s.DataDir ++ "/".toList] ∧
    syscall_paths (new_events s (pglite_open h s "/etc/passwd".toList flags mode).1)
      = [s.DataDir ++ "//etc/passwd".toList] := by
  have hlen : (s.DataDir ++ '/' :: p).length = s.DataDir.length + 1 + p.length := by
    simp [List.length_append]
    omega
  refine ⟨⟨s.DataDir ++ '/' :: p, ?_, ⟨p, by simp⟩, hlen⟩,
    ⟨s.DataDir ++ '/' :: p, ?_, ⟨p, by simp⟩, hlen⟩,
    ⟨s.DataDir ++ '/' :: p, ?_, ⟨p, by simp⟩, hlen⟩,
    ⟨s.DataDir ++ '/' :: p, ?_, ⟨p, by simp⟩, hlen⟩, ?_, ?_⟩
  · rw [pglite_mkdir_eq, new_events_append s _ _ rfl]
    simp [syscall_paths, Event.sysPath]
  · rw [pglite_opendir_eq, new_events_append s _ _ rfl]
    simp [syscall_paths, Event.sysPath]
  · rw [pglite_stat_eq, new_events_append s _ _ rfl]
    simp [syscall_paths, Event.sysPath]
  · rw [pglite_open_eq, new_events_append s _ _ rfl]
    simp [syscall_paths, Event.sysPath]
  · rw [pglite_open_eq, new_events_append s _ _ rfl]
    simp [syscall_paths, Event.sysPath]
  · rw [pglite_open_eq, new_events_append s _ _ rfl]
    simp [syscall_paths, Event.sysPath]

/-! ## The signal sets along every run, and `errno` at entry -/

theorem run_keeps_sigsets (h : Sys W) (s : Proc W) (c : ShimCall) :
    sigsets (c.run h s) = sigsets s := by
  cases c with
  | pqinitmask => rfl
  | pqsigsetmask mask => rfl
  | pglite_mkdir path mode => simp [ShimCall.run, pglite_mkdir_eq, sigsets]
  | pglite_opendir path => simp [ShimCall.run, pglite_opendir_eq, sigsets]
  | pglite_stat path buf => simp [ShimCall.run, pglite_stat_eq, sigsets]
  | pglite_open path flags mode => simp [ShimCall.run, pglite_open_eq, sigsets]

theorem run_calls_keeps_sigsets (h : Sys W) (cs : List ShimCall) (s : Proc W) :
    sigsets (run_calls h s cs) = sigsets s := by
  induction cs generalizing s with
  | nil => rfl
  | cons c cs ih =>
    have hstep : run_calls h s (c :: cs) = run_calls h (c.run h s) cs := rfl
    rw [hstep, ih, run_keeps_sigsets]

/-- Claim C22.  In every state reached from process start by any sequence of `pqinitmask`,
`pqsigsetmask` and filesystem-shim calls, `UnBlockSig`, `BlockSig` and `StartupBlockSig` all
still hold their initial zero-initialised (empty) value; no call of the layer changes any of the
three sets, from any state. -/
theorem sigsets_stay_empty (h : Sys W) (R : CString) (w : W) (cs : List ShimCall) (s : Proc W)
    (c : ShimCall) :
    sigsets (run_calls h (boot R w) cs) = (empty_sigset, empty_sigset, empty_sigset) ∧
    (run_calls h (boot R w) cs).UnBlockSig = 0 ∧
    (run_calls h (boot R w) cs).BlockSig = 0 ∧
    (run_calls h (boot R w) cs).StartupBlockSig = 0 ∧
    sigsets (c.run h s) = sigsets s := by
  have hall : sigsets (run_calls h (boot R w) cs) = sigsets (boot R w) :=
    run_calls_keeps_sigsets h cs (boot R w)
  have hboot : sigsets (boot R w) = (0, 0, 0) := rfl
  rw [hboot] at hall
  simp only [sigsets, Prod.mk.injEq] at hall
  refine ⟨?_, hall.1, hall.2.1, hall.2.2, run_keeps_sigsets h s c⟩
  simp [sigsets, empty_sigset, hall]

/-- Claim C23.  Each filesystem shim sets `errno` to `0` right before its system call: whatever
value `e0` `errno` holds at entry, the `errno` the caller finds on return is the error number the
system call stored, and `0` when the call stored none; so it never depends on `e0`.  A direct
system call made with `errno = e0` leaves `e0` in place when it stores none.  On the toy file
system, opening an existing file with `errno = 5` at entry leaves `0` through the shim and `5`
through the direct call. -/
theorem shims_reset_errno_before_syscall (h : Sys W) (s : Proc W) (p : CString) (mode : Nat)
    (flags : Int) (buf : StatBuf) (e0 : Int) :
    ((pglite_mkdir h { s with errno := e0 } p mode).1.errno
        = (h.mkdir s.world (s.DataDir ++ "/".toList ++ p) mode).err.getD 0 ∧
      (sys_mkdir h { s with errno := e0 } (s.DataDir ++ "/".toList ++ p) mode).1.errno
        = (h.mkdir s.world (s.DataDir ++ "/".toList ++ p) mode).err.getD e0) ∧
    ((pglite_opendir h { s with errno := e0 } p).1.errno
        = (h.opendir s.world (s.DataDir ++ "/".toList ++ p)).err.getD 0 ∧
      (sys_opendir h { s with errno := e0 } (s.DataDir ++ "/".toList ++ p)).1.errno
        = (h.opendir s.world (s.DataDir ++ "/".toList ++ p)).err.getD e0) ∧
    ((pglite_stat h { s with errno := e0 } p buf).1.errno
        = (h.stat s.world (s.DataDir ++ "/".toList ++ p) buf).err.getD 0 ∧
      (sys_stat h { s with errno := e0 } (s.DataDir ++ "/".toList ++ p) buf).1.errno
        = (h.stat s.world (s.DataDir ++ "/".toList ++ p) buf).err.getD e0) ∧
    ((pglite_open h { s with errno := e0 } p flags mode).1.errno
        = (h.sys_open s.world (s.DataDir ++ "/".toList ++ p) flags mode).err.getD 0 ∧
      (sys_open h { s with errno := e0 } (s.DataDir ++ "/".toList ++ p) flags mode).1.errno
        = (h.sys_open s.world (s.DataDir ++ "/".toList ++ p) flags mode).err.getD e0) ∧
    ((pglite_open toyfs { boot "/data".toList ["/data/x".toList] with errno := 5 }
        "x".toList 0 0).1.errno = 0 ∧
      (sys_open toyfs { boot "/data".toList ["/data/x".toList] with errno := 5 }
        "/data/x".toList 0 0).1.errno = 5) := by
  refine ⟨?_, ?_, ?_, ?_, by decide, by decide⟩ <;>
    simp [pglite_mkdir_eq, pglite_opendir_eq, pglite_stat_eq, pglite_open_eq, sys_mkdir,
      sys_opendir, sys_stat, sys_open]

/-! ## `pl_gram.c`: keyword tokens, labels and `RAISE` parameters -/

theorem raise_scan_eq (s : List Char) (n : Nat) : raise_scan s n = n + raise_placeholders s := by
  induction s, n using raise_scan.induct with
  | case1 n => simp [raise_scan, raise_placeholders]
  | case2 rest n ih => simp [raise_scan, raise_placeholders, ih]
  | case3 rest n hne ih =>
    rw [raise_scan, raise_placeholders, ih]
    · omega
    · exact hne
    · exact hne
  | case4 c rest n h1 h2 ih =>
    rw [raise_scan, raise_placeholders, ih]
    · exact h1
    · exact h2
    · exact h1
    · exact h2

theorem strcmp_eq_zero_iff (a b : CString) : strcmp a b = 0 ↔ a = b := by
  induction a generalizing b with
  | nil => cases b <;> simp [strcmp]
  | cons x xs ih =>
    cases b with
    | nil => simp [strcmp]
    | cons y ys =>
      by_cases hxy : x = y
      · simp [strcmp, hxy, ih]
      · by_cases hlt : x.toNat < y.toNat <;> simp [strcmp, hxy, hlt]

/-- Claim C25.  `check_raise_parameters`: with `n` the number of placeholders of the message (a
`%` followed by `%` is one literal, any other `%` is a placeholder), it raises "too many
parameters specified for RAISE" iff a message is given and `n` is less than the number of
parameters, raises "too few parameters specified for RAISE" iff a message is given and `n` is
greater, and returns without raising iff the message is absent or the two numbers are equal. -/
theorem check_raise_parameters_verdict (stmt : PLpgSQL_stmt_raise) :
    (check_raise_parameters stmt
        = Except.error (PgError.ereport "ERRCODE_SYNTAX_ERROR"
            "too many parameters specified for RAISE" [] none) ↔
      ∃ m, stmt.message = some m ∧ raise_placeholders m < stmt.params.length) ∧
    (check_raise_parameters stmt
        = Except.error (PgError.ereport "ERRCODE_SYNTAX_ERROR"
            "too few parameters specified for RAISE" [] none) ↔
      ∃ m, stmt.message = some m ∧ raise_placeholders m > stmt.params.length) ∧
    (check_raise_parameters stmt = Except.ok () ↔
      stmt.message = none ∨
        ∃ m, stmt.message = some m ∧ raise_placeholders m = stmt.params.length) := by
  cases hm : stmt.message with
  | none => simp [check_raise_parameters, hm]
  | some m =>
    simp only [check_raise_parameters, hm, raise_scan_eq, Nat.zero_add]
    by_cases h1 : raise_placeholders m < stmt.params.length
    · have h2 : ¬ raise_placeholders m > stmt.params.length := by omega
      have h3 : raise_placeholders m ≠ stmt.params.length := by omega
      simp [h1, h2, h3]
    · by_cases h2 : raise_placeholders m > stmt.params.length
      · have h3 : raise_placeholders m ≠ stmt.params.length := by omega
        simp [h1, h2, h3]
      · have h3 : raise_placeholders m = stmt.params.length := by omega
        simp [h1, h2, h3]

/-- Claim C26.  `check_labels` raises an error iff an end label is given and either the block
has no start label (the "specified for unlabeled block" error) or the start label differs from
the end label (the "differs from block's label" error); with no end label it never raises,
whatever the start label. -/
theorem check_labels_verdict (start_label end_label : Option CString) (st e : CString)
    (end_location : Int) :
    ((∃ err, check_labels start_label end_label end_location = Except.error err) ↔
      ∃ e1, end_label = some e1 ∧
        (start_label = none ∨ ∃ s1, start_label = some s1 ∧ s1 ≠ e1)) ∧
    check_labels none (some e) end_location
      = Except.error (PgError.ereport "ERRCODE_SYNTAX_ERROR"
          "end label \"%s\" specified for unlabeled block" [ErrArg.str e] (some end_location)) ∧
    check_labels (some st) (some e) end_location
      = (if st = e then Except.ok ()
         else Except.error (PgError.ereport "ERRCODE_SYNTAX_ERROR"
          "end label \"%s\" differs from block's label \"%s\"" [ErrArg.str e, ErrArg.str st]
          (some end_location))) ∧
    check_labels start_label none end_location = Except.ok () := by
  refine ⟨?_, rfl, ?_, rfl⟩
  · cases end_label with
    | none => simp [check_labels]
    | some e1 =>
      cases start_label with
      | none => simp [check_labels]
      | some s1 =>
        by_cases hse : s1 = e1
        · simp [check_labels, strcmp_eq_zero_iff, hse]
        · simp [check_labels, strcmp_eq_zero_iff, hse]
  · by_cases hse : st = e
    · simp [check_labels, strcmp_eq_zero_iff, hse]
    · simp [check_labels, strcmp_eq_zero_iff, hse]

/-- Claim C27.  `tok_is_keyword(token, lval, kw_token, kw_str)` returns true iff `token` equals
`kw_token`, or `token` is `T_DATUM` and the datum's name is unquoted, is a simple identifier
(`ident` is not `NULL`) and equals `kw_str` exactly; for every other input it returns false. -/
theorem tok_is_keyword_iff (token : Int) (lval : YYSTYPE) (kw_token : Int) (kw_str : CString) :
    (tok_is_keyword token lval kw_token kw_str = true ↔
      token = kw_token ∨
        (token = T_DATUM ∧ lval.wdatum.quoted = false ∧ lval.wdatum.ident = some kw_str)) ∧
    (tok_is_keyword token lval kw_token kw_str = false ↔
      ¬ (token = kw_token ∨
        (token = T_DATUM ∧ lval.wdatum.quoted = false ∧ lval.wdatum.ident = some kw_str))) := by
  have hiff : tok_is_keyword token lval kw_token kw_str = true ↔
      token = kw_token ∨
        (token = T_DATUM ∧ lval.wdatum.quoted = false ∧ lval.wdatum.ident = some kw_str) := by
    unfold tok_is_keyword
    by_cases h1 : token = kw_token
    · simp [h1]
    · by_cases h2 : token = T_DATUM
      · cases hid : lval.wdatum.ident with
        | none => simp [h1, h2]
        | some ident =>
          cases hq : lval.wdatum.quoted <;> simp [h1, h2, strcmp_eq_zero_iff]
      · simp [h1, h2]
  refine ⟨hiff, ?_⟩
  rw [← hiff]
  simp

/-! ## `pl_gram.c`: `check_assignable` -/

theorem follow_recparent_mono (Datums : List PLpgSQL_datum) (depth : Nat) :
    ∀ (more : Nat) (datum r : PLpgSQL_datum),
      follow_recparent depth Datums datum = some r →
      follow_recparent (depth + more) Datums datum = some r := by
  induction depth with
  | zero => intro more datum r hr; simp [follow_recparent] at hr
  | succ depth ih =>
    intro more datum r hr
    have hadd : depth + 1 + more = (depth + more) + 1 := by omega
    rw [hadd]
    by_cases hrf : datum.dtype = PLPGSQL_DTYPE_RECFIELD
    · cases hp : datum_at Datums datum.recparentno with
      | none => simp [follow_recparent, hrf, hp] at hr
      | some parent =>
        simp only [follow_recparent, hrf, hp, if_true] at hr ⊢
        exact ih more parent r hr
    · simp only [follow_recparent, hrf, if_false] at hr ⊢
      exact hr

theorem follow_recparent_not_recfield (Datums : List PLpgSQL_datum) (depth : Nat) :
    ∀ (datum r : PLpgSQL_datum), follow_recparent depth Datums datum = some r →
      r.dtype ≠ PLPGSQL_DTYPE_RECFIELD := by
  induction depth with
  | zero => intro datum r hr; simp [follow_recparent] at hr
  | succ depth ih =>
    intro datum r hr
    by_cases hrf : datum.dtype = PLPGSQL_DTYPE_RECFIELD
    · cases hp : datum_at Datums datum.recparentno with
      | none => simp [follow_recparent, hrf, hp] at hr
      | some parent =>
        simp only [follow_recparent, hrf, hp, if_true] at hr
        exact ih parent r hr
    · simp only [follow_recparent, hrf, if_false, Option.some.injEq] at hr
      rw [← hr]
      exact hrf

theorem check_assignable_follow (Datums : List PLpgSQL_datum) (location : Int) (depth : Nat) :
    ∀ (datum r : PLpgSQL_datum), follow_recparent depth Datums datum = some r →
      check_assignable depth Datums datum location = check_assignable 1 Datums r location := by
  induction depth with
  | zero => intro datum r hr; simp [follow_recparent] at hr
  | succ depth ih =>
    intro datum r hr
    by_cases hrf : datum.dtype = PLPGSQL_DTYPE_RECFIELD
    · have h1 : ¬ (datum.dtype = PLPGSQL_DTYPE_VAR ∨ datum.dtype = PLPGSQL_DTYPE_PROMISE ∨
          datum.dtype = PLPGSQL_DTYPE_REC) := by
        rw [hrf]; decide
      have h2 : ¬ datum.dtype = PLPGSQL_DTYPE_ROW := by rw [hrf]; decide
      cases hp : datum_at Datums datum.recparentno with
      | none => simp [follow_recparent, hrf, hp] at hr
      | some parent =>
        simp only [follow_recparent, hrf, hp, if_true] at hr
        have hrec := ih parent r hr
        rw [← hrec]
        rw [check_assignable]
        rw [if_neg h1, if_neg h2, if_pos hrf, hp]
    · simp only [follow_recparent, hrf, if_false, Option.some.injEq] at hr
      rw [← hr]
      simp only [check_assignable, hrf, if_false]

/-! ## `pl_gram.c`: `read_into_scalar_list` -/

theorem into_loop_stores (depth : Nat) (Datums : List PLpgSQL_datum) :
    ∀ (n : Nat) (pending : List Token) (l : IntoLocals), pending.length ≤ n →
      (l.stores.all (fun i => decide (i < 1024)) = true) →
      ((into_loop depth Datums pending l).1.stores.all (fun i => decide (i < 1024)) = true) := by
  intro n
  induction n with
  | zero =>
    intro pending l hlen hl
    have : pending = [] := List.length_eq_zero.mp (Nat.le_zero.mp hlen)
    subst this
    simpa [into_loop] using hl
  | succ n ih =>
    intro pending l hlen hl
    cases pending with
    | nil => simpa [into_loop] using hl
    | cons t ts =>
      cases ts with
      | nil =>
        by_cases h1 : t.code = tok_of ','
        · by_cases h2 : l.nfields ≥ 1024
          · simpa [into_loop, h1, h2] using hl
          · simpa [into_loop, h1, h2] using hl
        · simpa [into_loop, h1] using hl
      | cons t2 ts2 =>
        by_cases h1 : t.code = tok_of ','
        · by_cases h2 : l.nfields ≥ 1024
          · simpa [into_loop, h1, h2] using hl
          · by_cases h3 : t2.code = T_DATUM
            · cases hc : check_assignable depth Datums t2.lval.wdatum.datum t2.lloc with
              | none => simpa [into_loop, h1, h2, h3, hc] using hl
              | some r =>
                cases r with
                | error e => simpa [into_loop, h1, h2, h3, hc] using hl
                | ok u =>
                  by_cases h4 : t2.lval.wdatum.datum.dtype = PLPGSQL_DTYPE_ROW ∨
                      t2.lval.wdatum.datum.dtype = PLPGSQL_DTYPE_REC
                  · simpa [into_loop, h1, h2, h3, hc, h4] using hl
                  · have hrec := ih ts2 (into_store l t2.lval.wdatum)
                      (by simp at hlen ⊢; omega)
                      (by
                        simp only [into_store, List.all_append, hl, Bool.true_and]
                        simp
                        omega)
                    simpa [into_loop, h1, h2, h3, hc, h4] using hrec
            · simpa [into_loop, h1, h2, h3] using hl
        · simpa [into_loop, h1] using hl

theorem into_var_ok_iff (depth : Nat) (Datums : List PLpgSQL_datum) (t : Token)
    (hok : into_var_ok depth Datums t = true) :
    t.code = T_DATUM ∧
    (∃ u, check_assignable depth Datums t.lval.wdatum.datum t.lloc = some (Except.ok u)) ∧
    ¬ (t.lval.wdatum.datum.dtype = PLPGSQL_DTYPE_ROW ∨
        t.lval.wdatum.datum.dtype = PLPGSQL_DTYPE_REC) := by
  unfold into_var_ok at hok
  simp only [Bool.and_eq_true, decide_eq_true_eq] at hok
  obtain ⟨⟨⟨hcode, hchk⟩, hrow⟩, hrec⟩ := hok
  refine ⟨hcode, ?_, fun hor => hor.elim hrow hrec⟩
  cases hc : check_assignable depth Datums t.lval.wdatum.datum t.lloc with
  | none => simp [hc] at hchk
  | some r =>
    cases r with
    | error e => simp [hc] at hchk
    | ok u => exact ⟨u, rfl⟩

theorem into_loop_pairs (depth : Nat) (Datums : List PLpgSQL_datum) (rest : List Token) :
    ∀ (pairs : List (Token × Token)) (l : IntoLocals),
      (∀ pr ∈ pairs, pr.1.code = tok_of ',' ∧ into_var_ok depth Datums pr.2 = true) →
      l.nfields + pairs.length ≤ 1024 →
      into_loop depth Datums (into_tokens pairs ++ rest) l
        = into_loop depth Datums rest
            (pairs.foldl (fun acc pr => into_store acc pr.2.lval.wdatum) l) := by
  intro pairs
  induction pairs with
  | nil => intro l _ _; rfl
  | cons pr ps ih =>
    intro l hgood hlen
    have hpr := hgood pr (List.mem_cons_self pr ps)
    obtain ⟨hcode, ⟨u, hchk⟩, hscalar⟩ := into_var_ok_iff depth Datums pr.2 hpr.2
    have hn : ¬ l.nfields ≥ 1024 := by simp at hlen; omega
    have htoks : into_tokens (pr :: ps) ++ rest = pr.1 :: pr.2 :: (into_tokens ps ++ rest) := by
      simp [into_tokens]
    rw [htoks, into_loop]
    simp only [hpr.1, hn, hcode, hchk, hscalar, if_true, if_false]
    rw [ih (into_store l pr.2.lval.wdatum)
      (fun q hq => hgood q (List.mem_cons_of_mem pr hq))
      (by simp [into_store] at hlen ⊢; omega)]
    rfl

theorem into_fold_nfields :
    ∀ (pairs : List (Token × Token)) (l : IntoLocals),
      (pairs.foldl (fun acc pr => into_store acc pr.2.lval.wdatum) l).nfields
        = l.nfields + pairs.length := by
  intro pairs
  induction pairs with
  | nil => intro l; rfl
  | cons pr ps ih =>
    intro l
    rw [List.foldl_cons, ih (into_store l pr.2.lval.wdatum), List.length_cons]
    simp only [into_store]
    omega

theorem range_map_array_store {α : Type} (a : Nat → α) (n : Nat) (v : α) :
    (List.range (n + 1)).map (array_store a n v) = (List.range n).map a ++ [v] := by
  rw [List.range_succ, List.map_append]
  congr 1
  · apply List.map_congr_left
    intro i hi
    have : i ≠ n := by
      have := List.mem_range.mp hi
      omega
    simp [array_store, this]
  · simp [array_store]

theorem into_fold_arrays :
    ∀ (pairs : List (Token × Token)) (l : IntoLocals),
      (List.range (pairs.foldl (fun acc pr => into_store acc pr.2.lval.wdatum) l).nfields).map
          (pairs.foldl (fun acc pr => into_store acc pr.2.lval.wdatum) l).fieldnames
        = (List.range l.nfields).map l.fieldnames
            ++ pairs.map (fun pr => NameOfDatum pr.2.lval.wdatum) ∧
      (List.range (pairs.foldl (fun acc pr => into_store acc pr.2.lval.wdatum) l).nfields).map
          (pairs.foldl (fun acc pr => into_store acc pr.2.lval.wdatum) l).varnos
        = (List.range l.nfields).map l.varnos
            ++ pairs.map (fun pr => pr.2.lval.wdatum.datum.dno) := by
  intro pairs
  induction pairs with
  | nil => intro l; simp
  | cons pr ps ih =>
    intro l
    have h := ih (into_store l pr.2.lval.wdatum)
    simp only [List.foldl_cons, List.map_cons]
    refine ⟨?_, ?_⟩
    · rw [h.1]
      simp only [into_store, range_map_array_store, List.append_assoc, List.singleton_append]
    · rw [h.2]
      simp only [into_store, range_map_array_store, List.append_assoc, List.singleton_append]


/-- Claim C29.  Let `r` be the datum reached from the given datum by following record-field
parent links (`recparentno`).  With enough recursion depth to reach `r`, `check_assignable`
raises "variable ... is declared CONSTANT" iff `r` is a `VAR`, `PROMISE` or `REC` datum marked
`isconst`; it returns without raising when `r` is such a datum not marked `isconst` or a `ROW`
datum, and raises "unrecognized dtype" for any other kind; for a `ROW` datum it never raises. -/
theorem check_assignable_verdict (Datums : List PLpgSQL_datum) (datum r : PLpgSQL_datum)
    (location : Int) (depth more : Nat)
    (hreach : follow_recparent depth Datums datum = some r) :
    (check_assignable (depth + more) Datums datum location
        = some (Except.error (PgError.ereport "ERRCODE_ERROR_IN_ASSIGNMENT"
            "variable \"%s\" is declared CONSTANT" [ErrArg.str r.refname] (some location))) ↔
      (r.dtype = PLPGSQL_DTYPE_VAR ∨ r.dtype = PLPGSQL_DTYPE_PROMISE ∨
        r.dtype = PLPGSQL_DTYPE_REC) ∧ r.isconst = true) ∧
    check_assignable (depth + more) Datums datum location
      = some (if r.dtype = PLPGSQL_DTYPE_VAR ∨ r.dtype = PLPGSQL_DTYPE_PROMISE ∨
            r.dtype = PLPGSQL_DTYPE_REC then
          (if r.isconst then
            Except.error (PgError.ereport "ERRCODE_ERROR_IN_ASSIGNMENT"
              "variable \"%s\" is declared CONSTANT" [ErrArg.str r.refname] (some location))
           else Except.ok ())
        else if r.dtype = PLPGSQL_DTYPE_ROW then Except.ok ()
        else Except.error (PgError.elog "unrecognized dtype: %d" [ErrArg.int r.dtype])) ∧
    check_assignable (depth + more) Datums { datum with dtype := PLPGSQL_DTYPE_ROW } location
      = some (Except.ok ()) := by
  have hfollow := follow_recparent_mono Datums depth more datum r hreach
  have hnrf := follow_recparent_not_recfield Datums depth datum r hreach
  have heq := check_assignable_follow Datums location (depth + more) datum r hfollow
  have hone : check_assignable 1 Datums r location
      = some (if r.dtype = PLPGSQL_DTYPE_VAR ∨ r.dtype = PLPGSQL_DTYPE_PROMISE ∨
            r.dtype = PLPGSQL_DTYPE_REC then
          (if r.isconst then
            Except.error (PgError.ereport "ERRCODE_ERROR_IN_ASSIGNMENT"
              "variable \"%s\" is declared CONSTANT" [ErrArg.str r.refname] (some location))
           else Except.ok ())
        else if r.dtype = PLPGSQL_DTYPE_ROW then Except.ok ()
        else Except.error (PgError.elog "unrecognized dtype: %d" [ErrArg.int r.dtype])) := by
    simp only [check_assignable, hnrf, if_false]
    split_ifs <;> rfl
  have hpos : ∃ k, depth + more = k + 1 := by
    cases depth with
    | zero => simp [follow_recparent] at hreach
    | succ d => exact ⟨d + more, by omega⟩
  refine ⟨?_, heq.trans hone, ?_⟩
  · rw [heq, hone]
    by_cases hk : r.dtype = PLPGSQL_DTYPE_VAR ∨ r.dtype = PLPGSQL_DTYPE_PROMISE ∨
        r.dtype = PLPGSQL_DTYPE_REC
    · cases hc : r.isconst <;> simp [hk, hc]
    · rw [if_neg hk]
      split_ifs <;> simp [hk]
  · obtain ⟨k, hk⟩ := hpos
    rw [hk]
    simp [check_assignable, PLPGSQL_DTYPE_ROW, PLPGSQL_DTYPE_VAR, PLPGSQL_DTYPE_PROMISE,
      PLPGSQL_DTYPE_REC]

/-- Witness for C29: the field at index `1` of `demo_datums` leads to the constant record `r` at
index `0`, and `check_assignable` raises "variable r is declared CONSTANT" for it. -/
theorem check_assignable_verdict_witness :
    follow_recparent 2 demo_datums
        { dtype := PLPGSQL_DTYPE_RECFIELD, dno := 1, refname := "f".toList, isconst := false,
          recparentno := 0 }
      = some { dtype := PLPGSQL_DTYPE_REC, dno := 0, refname := "r".toList, isconst := true,
               recparentno := 0 } ∧
    check_assignable 2 demo_datums
        { dtype := PLPGSQL_DTYPE_RECFIELD, dno := 1, refname := "f".toList, isconst := false,
          recparentno := 0 } 7
      = some (Except.error (PgError.ereport "ERRCODE_ERROR_IN_ASSIGNMENT"
          "variable \"%s\" is declared CONSTANT" [ErrArg.str "r".toList] (some 7))) :=
  ⟨rfl, (check_assignable_verdict demo_datums
      { dtype := PLPGSQL_DTYPE_RECFIELD, dno := 1, refname := "f".toList, isconst := false,
        recparentno := 0 }
      { dtype := PLPGSQL_DTYPE_REC, dno := 0, refname := "r".toList, isconst := true,
        recparentno := 0 } 7 2 0 rfl).2.1⟩


theorem into_loop_success_shape (depth : Nat) (Datums : List PLpgSQL_datum) :
    ∀ (n : Nat) (pending : List Token) (l l1 : IntoLocals) (rest : List Token),
      pending.length ≤ n →
      into_loop depth Datums pending l = (l1, some (Except.ok rest)) →
      ∃ pairs : List (Token × Token),
        pending = into_tokens pairs ++ rest ∧
        (∀ pr ∈ pairs, pr.1.code = tok_of ',' ∧ into_var_ok depth Datums pr.2 = true) ∧
        l1 = pairs.foldl (fun acc pr => into_store acc pr.2.lval.wdatum) l ∧
        (∀ t ∈ rest.head?, t.code ≠ tok_of ',') := by
  intro n
  induction n with
  | zero =>
    intro pending l l1 rest hlen hrun
    have : pending = [] := List.length_eq_zero.mp (Nat.le_zero.mp hlen)
    subst this
    simp only [into_loop, Prod.mk.injEq, Option.some.injEq, Except.ok.injEq] at hrun
    exact ⟨[], by simp [into_tokens, ← hrun.2], by simp, by simp [hrun.1], by simp [← hrun.2]⟩
  | succ n ih =>
    intro pending l l1 rest hlen hrun
    cases pending with
    | nil =>
      simp only [into_loop, Prod.mk.injEq, Option.some.injEq, Except.ok.injEq] at hrun
      exact ⟨[], by simp [into_tokens, ← hrun.2], by simp, by simp [hrun.1], by simp [← hrun.2]⟩
    | cons t ts =>
      cases ts with
      | nil =>
        by_cases h1 : t.code = tok_of ','
        · by_cases h2 : l.nfields ≥ 1024
          · simp [into_loop, h1, h2] at hrun
          · simp [into_loop, h1, h2] at hrun
        · simp only [into_loop, h1, if_false, Prod.mk.injEq, Option.some.injEq,
            Except.ok.injEq] at hrun
          exact ⟨[], by simp [into_tokens, ← hrun.2], by simp, by simp [hrun.1],
            by simp [← hrun.2, h1]⟩
      | cons t2 ts2 =>
        by_cases h1 : t.code = tok_of ','
        · by_cases h2 : l.nfields ≥ 1024
          · simp [into_loop, h1, h2] at hrun
          · by_cases h3 : t2.code = T_DATUM
            · cases hc : check_assignable depth Datums t2.lval.wdatum.datum t2.lloc with
              | none => simp [into_loop, h1, h2, h3, hc] at hrun
              | some r =>
                cases r with
                | error e => simp [into_loop, h1, h2, h3, hc] at hrun
                | ok u =>
                  by_cases h4 : t2.lval.wdatum.datum.dtype = PLPGSQL_DTYPE_ROW ∨
                      t2.lval.wdatum.datum.dtype = PLPGSQL_DTYPE_REC
                  · simp [into_loop, h1, h2, h3, hc, h4] at hrun
                  · have hrun2 : into_loop depth Datums ts2 (into_store l t2.lval.wdatum)
                        = (l1, some (Except.ok rest)) := by
                      simpa [into_loop, h1, h2, h3, hc, h4] using hrun
                    obtain ⟨pairs, hp, hgood, hl1, hrest⟩ :=
                      ih ts2 (into_store l t2.lval.wdatum) l1 rest
                        (by simp at hlen ⊢; omega) hrun2
                    have hok : into_var_ok depth Datums t2 = true := by
                      have h4a : ¬ t2.lval.wdatum.datum.dtype = PLPGSQL_DTYPE_ROW :=
                        fun h => h4 (Or.inl h)
                      have h4b : ¬ t2.lval.wdatum.datum.dtype = PLPGSQL_DTYPE_REC :=
                        fun h => h4 (Or.inr h)
                      simp [into_var_ok, h3, hc, h4a, h4b]
                    refine ⟨(t, t2) :: pairs, ?_, ?_, ?_, hrest⟩
                    · simp [into_tokens, hp]
                    · intro pr hpr
                      rcases List.mem_cons.mp hpr with h | h
                      · rw [h]; exact ⟨h1, hok⟩
                      · exact hgood pr h
                    · simpa using hl1
            · simp [into_loop, h1, h2, h3] at hrun
        · simp only [into_loop, h1, if_false, Prod.mk.injEq, Option.some.injEq,
            Except.ok.injEq] at hrun
          exact ⟨[], by simp [into_tokens, ← hrun.2], by simp, by simp [hrun.1],
            by simp [← hrun.2, h1]⟩

/-- Every success of `read_into_scalar_list` has the shape of claim C28: the tokens read were
`, variable` pairs, all accepted, and the row lists the first variable and then those of the
pairs, in order. -/
theorem read_into_scalar_list_success_shape (depth : Nat) (lineno_of : Int → Int)
    (Datums : List PLpgSQL_datum) (initial_name : CString) (initial_datum : PLpgSQL_datum)
    (initial_location : Int) (pending : List Token) (row : PLpgSQL_row)
    (table : List PLpgSQL_datum) (rest : List Token)
    (hrun : (read_into_scalar_list depth lineno_of Datums initial_name initial_datum
      initial_location pending).2 = some (Except.ok (row, table, rest))) :
    ∃ pairs : List (Token × Token),
      pending = into_tokens pairs ++ rest ∧
      (∀ pr ∈ pairs, pr.1.code = tok_of ',' ∧ into_var_ok depth Datums pr.2 = true) ∧
      row.nfields = 1 + pairs.length ∧
      row.fieldnames = initial_name :: pairs.map (fun pr => NameOfDatum pr.2.lval.wdatum) ∧
      row.varnos = initial_datum.dno :: pairs.map (fun pr => pr.2.lval.wdatum.datum.dno) := by
  unfold read_into_scalar_list at hrun
  cases hc : check_assignable depth Datums initial_datum initial_location with
  | none => simp [hc] at hrun
  | some r =>
    cases r with
    | error e => simp [hc] at hrun
    | ok u =>
      simp only [hc] at hrun
      cases hloop : into_loop depth Datums pending
          { nfields := 1, fieldnames := array_store (fun _ => []) 0 initial_name,
            varnos := array_store (fun _ => 0) 0 initial_datum.dno, stores := [0, 0] } with
      | mk l1 out =>
        rw [hloop] at hrun
        cases out with
        | none => simp at hrun
        | some res =>
          cases res with
          | error e => simp at hrun
          | ok rest1 =>
            simp only [Option.some.injEq, Except.ok.injEq, Prod.mk.injEq] at hrun
            obtain ⟨hrow, _, hrest⟩ := hrun
            subst hrest
            obtain ⟨pairs, hp, hgood, hl1, _⟩ :=
              into_loop_success_shape depth Datums pending.length pending _ l1 rest1
                (Nat.le_refl _) hloop
            have hn := into_fold_nfields pairs
              { nfields := 1, fieldnames := array_store (fun _ => []) 0 initial_name,
                varnos := array_store (fun _ => 0) 0 initial_datum.dno, stores := [0, 0] }
            have ha := into_fold_arrays pairs
              { nfields := 1, fieldnames := array_store (fun _ => []) 0 initial_name,
                varnos := array_store (fun _ => 0) 0 initial_datum.dno, stores := [0, 0] }
            rw [← hl1] at hn ha
            refine ⟨pairs, hp, hgood, ?_, ?_, ?_⟩
            · rw [← hrow]; simp only [hn]
            · rw [← hrow]
              simp only [ha.1]
              simp [List.range_succ, array_store]
            · rw [← hrow]
              simp only [ha.2]
              simp [List.range_succ, array_store]

/-- Claim C28.  `read_into_scalar_list` accepts at most 1024 INTO variables.  For every input,
every store into `fieldnames` and `varnos` uses an index below 1024.  When the first variable is
followed by 1023 accepted `, variable` pairs (1024 variables in all) and then a comma, the comma
raises "too many INTO variables specified".  When it is followed by at most 1023 accepted pairs
and then a token that is not a comma, the call succeeds, leaves that token to be read next, and
the row has `nfields` equal to the number of variables read, with `fieldnames` and `varnos` in
the order the variables appeared. -/
theorem read_into_scalar_list_limit (depth : Nat) (lineno_of : Int → Int)
    (Datums : List PLpgSQL_datum) (initial_name : CString) (initial_datum : PLpgSQL_datum)
    (initial_location : Int) (pending : List Token)
    (full pairs : List (Token × Token)) (comma : Token) (tail rest : List Token)
    (hinit : ∃ u, check_assignable depth Datums initial_datum initial_location
      = some (Except.ok u))
    (hfull : ∀ pr ∈ full, pr.1.code = tok_of ',' ∧ into_var_ok depth Datums pr.2 = true)
    (hfull_len : full.length = 1023)
    (hcomma : comma.code = tok_of ',')
    (hpairs : ∀ pr ∈ pairs, pr.1.code = tok_of ',' ∧ into_var_ok depth Datums pr.2 = true)
    (hpairs_len : pairs.length ≤ 1023)
    (hrest : ∀ t ∈ rest.head?, t.code ≠ tok_of ',') :
    (read_into_scalar_list depth lineno_of Datums initial_name initial_datum initial_location
        pending).1.all (fun i => decide (i < 1024)) = true ∧
    (read_into_scalar_list depth lineno_of Datums initial_name initial_datum initial_location
        (into_tokens full ++ comma :: tail)).2
      = some (Except.error (PgError.ereport "ERRCODE_PROGRAM_LIMIT_EXCEEDED"
          "too many INTO variables specified" [] (some comma.lloc))) ∧
    (∃ row table,
      (read_into_scalar_list depth lineno_of Datums initial_name initial_datum initial_location
          (into_tokens pairs ++ rest)).2 = some (Except.ok (row, table, rest)) ∧
      row.nfields = 1 + pairs.length ∧
      row.fieldnames = initial_name :: pairs.map (fun pr => NameOfDatum pr.2.lval.wdatum) ∧
      row.varnos = initial_datum.dno :: pairs.map (fun pr => pr.2.lval.wdatum.datum.dno)) := by
  obtain ⟨u, hinit⟩ := hinit
  refine ⟨?_, ?_, ?_⟩
  · unfold read_into_scalar_list
    cases hc : check_assignable depth Datums initial_datum initial_location with
    | none => rfl
    | some r =>
      cases r with
      | error e => rfl
      | ok u =>
        have hst := into_loop_stores depth Datums pending.length pending
          { nfields := 1, fieldnames := array_store (fun _ => []) 0 initial_name,
            varnos := array_store (fun _ => 0) 0 initial_datum.dno, stores := [0, 0] }
          (Nat.le_refl _) (by simp)
        simp only
        split
        · next l hl => rw [hl] at hst; exact hst
        · next l e hl => rw [hl] at hst; exact hst
        · next l rest hl => rw [hl] at hst; exact hst
  · unfold read_into_scalar_list
    simp only [hinit]
    rw [into_loop_pairs depth Datums (comma :: tail) full _ hfull
      (by show 1 + full.length ≤ 1024; omega)]
    have hn := into_fold_nfields full
      { nfields := 1, fieldnames := array_store (fun _ => []) 0 initial_name,
        varnos := array_store (fun _ => 0) 0 initial_datum.dno, stores := [0, 0] }
    rw [hfull_len] at hn
    simp only [Nat.reduceAdd] at hn
    cases tail with
    | nil => simp [into_loop, hcomma, hn]
    | cons t2 ts2 => simp [into_loop, hcomma, hn]
  · unfold read_into_scalar_list
    simp only [hinit]
    rw [into_loop_pairs depth Datums rest pairs _ hpairs (by show 1 + pairs.length ≤ 1024; omega)]
    have hn := into_fold_nfields pairs
      { nfields := 1, fieldnames := array_store (fun _ => []) 0 initial_name,
        varnos := array_store (fun _ => 0) 0 initial_datum.dno, stores := [0, 0] }
    have ha := into_fold_arrays pairs
      { nfields := 1, fieldnames := array_store (fun _ => []) 0 initial_name,
        varnos := array_store (fun _ => 0) 0 initial_datum.dno, stores := [0, 0] }
    have hexit : ∀ l : IntoLocals, into_loop depth Datums rest l = (l, some (Except.ok rest)) := by
      intro l
      cases rest with
      | nil => rfl
      | cons t ts =>
        have ht : t.code ≠ tok_of ',' := hrest t (by simp)
        cases ts with
        | nil => simp [into_loop, ht]
        | cons t2 ts2 => simp [into_loop, ht]
    rw [hexit]
    refine ⟨_, _, rfl, ?_, ?_, ?_⟩
    · simp only [hn]
    · rw [ha.1]
      simp [List.range_succ, array_store]
    · rw [ha.2]
      simp [List.range_succ, array_store]


/-- Witness for C28: after `a` and 1023 further variables a comma raises the limit error, and
`a , b ;` yields the row with fields `a`, `b` and datum numbers `0`, `1`, leaving `;`. -/
theorem read_into_scalar_list_limit_witness :
    (read_into_scalar_list 1 (fun loc => loc) [] "a".toList
        (var_token "a".toList 0 0).lval.wdatum.datum 0
        (into_tokens (List.replicate 1023 (plain_token (tok_of ',') 4, var_token "v".toList 1 5))
          ++ plain_token (tok_of ',') 9 :: [])).2
      = some (Except.error (PgError.ereport "ERRCODE_PROGRAM_LIMIT_EXCEEDED"
          "too many INTO variables specified" [] (some 9))) ∧
    (∃ row table,
      (read_into_scalar_list 1 (fun loc => loc) [] "a".toList
          (var_token "a".toList 0 0).lval.wdatum.datum 0
          [plain_token (tok_of ',') 1, var_token "b".toList 1 2, plain_token (tok_of ';') 3]).2
        = some (Except.ok (row, table, [plain_token (tok_of ';') 3])) ∧
      row.nfields = 2 ∧ row.fieldnames = ["a".toList, "b".toList] ∧ row.varnos = [0, 1]) := by
  have hc := read_into_scalar_list_limit 1 (fun loc => loc) [] "a".toList
    (var_token "a".toList 0 0).lval.wdatum.datum 0 []
    (List.replicate 1023 (plain_token (tok_of ',') 4, var_token "v".toList 1 5))
    [(plain_token (tok_of ',') 1, var_token "b".toList 1 2)]
    (plain_token (tok_of ',') 9) [] [plain_token (tok_of ';') 3]
    ⟨(), rfl⟩
    (fun pr hpr => by rw [List.eq_of_mem_replicate hpr]; exact ⟨rfl, by decide⟩)
    (List.length_replicate 1023 _)
    rfl
    (fun pr hpr => by
      rw [List.mem_singleton.mp hpr]
      exact ⟨rfl, by decide⟩)
    (by decide)
    (fun t ht => by
      simp only [List.head?_cons, Option.mem_def, Option.some.injEq] at ht
      rw [← ht]
      decide)
  exact ⟨hc.2.1, hc.2.2⟩


/-! ## `pl_gram.c`: `read_sql_construct` -/

theorem read_sql_end_check_eof (expected : CString) (isexpression : Bool)
    (yylloc parenlevel : Int) :
    ∃ e, read_sql_end_check expected isexpression 0 yylloc parenlevel = SqlStep.fail e := by
  unfold read_sql_end_check
  rw [if_pos (Or.inl rfl)]
  split_ifs
  · exact ⟨_, rfl⟩
  · exact ⟨_, rfl⟩
  · exact ⟨_, rfl⟩

theorem read_sql_step_eof (until1 until2 until3 : Int) (expected : CString)
    (isexpression : Bool) (yylloc parenlevel : Int) :
    read_sql_step until1 until2 until3 expected isexpression 0 yylloc parenlevel = SqlStep.stop ∨
    ∃ e, read_sql_step until1 until2 until3 expected isexpression 0 yylloc parenlevel
      = SqlStep.fail e := by
  unfold read_sql_step
  have hopen : ¬ ((0 : Int) = tok_of '(' ∨ (0 : Int) = tok_of '[') := by decide
  have hclose : ¬ ((0 : Int) = tok_of ')' ∨ (0 : Int) = tok_of ']') := by decide
  by_cases h1 : (0 : Int) = until1 ∧ parenlevel = 0
  · left; simp [h1]
  · by_cases h2 : (0 : Int) = until2 ∧ parenlevel = 0
    · left; simp [h1, h2]
    · by_cases h3 : (0 : Int) = until3 ∧ parenlevel = 0
      · left; simp [h1, h2, h3]
      · right
        rw [if_neg h1, if_neg h2, if_neg h3, if_neg hopen, if_neg hclose]
        exact read_sql_end_check_eof expected isexpression yylloc parenlevel

/-- The loop of `read_sql_construct` always ends: it stops or raises, on every token list. -/
theorem read_sql_loop_total (until1 until2 until3 : Int) (expected : CString)
    (isexpression : Bool) (eof_loc : Int) :
    ∀ (pending : List Token) (parenlevel startlocation : Int),
      read_sql_loop until1 until2 until3 expected isexpression eof_loc pending parenlevel
        startlocation ≠ none := by
  intro pending
  induction pending with
  | nil =>
    intro parenlevel startlocation
    unfold read_sql_loop
    rcases read_sql_step_eof until1 until2 until3 expected isexpression eof_loc parenlevel with
      h | ⟨e, h⟩
    · rw [h]; simp
    · rw [h]; simp
  | cons t ts ih =>
    intro parenlevel startlocation
    unfold read_sql_loop
    cases hs : read_sql_step until1 until2 until3 expected isexpression t.code t.lloc parenlevel with
    | stop => simp
    | fail e => simp
    | next lvl => exact ih lvl _

/-- What holds of one pass through the loop: a token equal to `until`, `until2` or `until3` at
depth 0 stops the scan; inside open brackets nothing stops it; a closing bracket at depth 0
that is not such a token raises "mismatched parentheses"; a semicolon, or the end of the input,
that does not stop the scan raises an error. -/
theorem read_sql_step_facts (until1 until2 until3 : Int) (expected : CString)
    (isexpression : Bool) (tok yylloc parenlevel : Int) :
    ((tok = until1 ∨ tok = until2 ∨ tok = until3) → parenlevel = 0 →
      read_sql_step until1 until2 until3 expected isexpression tok yylloc parenlevel
        = SqlStep.stop) ∧
    (parenlevel ≠ 0 →
      read_sql_step until1 until2 until3 expected isexpression tok yylloc parenlevel
        ≠ SqlStep.stop) ∧
    (tok = tok_of ')' ∨ tok = tok_of ']' → parenlevel = 0 →
      ¬ (tok = until1 ∨ tok = until2 ∨ tok = until3) →
      read_sql_step until1 until2 until3 expected isexpression tok yylloc parenlevel
        = SqlStep.fail (PgError.yyerror "mismatched parentheses")) ∧
    (tok = 0 ∨ tok = tok_of ';' →
      read_sql_step until1 until2 until3 expected isexpression tok yylloc parenlevel
        ≠ SqlStep.stop →
      ∃ e, read_sql_step until1 until2 until3 expected isexpression tok yylloc parenlevel
        = SqlStep.fail e) := by
  have hend : ∀ lvl : Int, read_sql_end_check expected isexpression tok yylloc lvl
      ≠ SqlStep.stop := by
    intro lvl
    unfold read_sql_end_check
    split_ifs <;> simp
  have hendfail : tok = 0 ∨ tok = tok_of ';' → ∀ lvl : Int,
      ∃ e, read_sql_end_check expected isexpression tok yylloc lvl = SqlStep.fail e := by
    intro ht lvl
    unfold read_sql_end_check
    rw [if_pos ht]
    split_ifs
    · exact ⟨_, rfl⟩
    · exact ⟨_, rfl⟩
    · exact ⟨_, rfl⟩
  refine ⟨?_, ?_, ?_, ?_⟩
  · intro ht hl
    unfold read_sql_step
    rcases ht with h | h | h
    · simp [h, hl]
    · simp [h, hl]
    · simp [h, hl]
  · intro hl
    unfold read_sql_step
    simp only [hl, and_false, if_false]
    split_ifs
    · exact hend _
    · simp
    · exact hend _
    · exact hend _
  · intro hclose hl hnot
    have hopen : ¬ (tok = tok_of '(' ∨ tok = tok_of '[') := by
      rcases hclose with h | h <;> rw [h] <;> decide
    unfold read_sql_step
    have h1 : ¬ (tok = until1 ∧ parenlevel = 0) := fun h => hnot (Or.inl h.1)
    have h2 : ¬ (tok = until2 ∧ parenlevel = 0) := fun h => hnot (Or.inr (Or.inl h.1))
    have h3 : ¬ (tok = until3 ∧ parenlevel = 0) := fun h => hnot (Or.inr (Or.inr h.1))
    rw [if_neg h1, if_neg h2, if_neg h3, if_neg hopen, if_pos hclose, hl]
    simp
  · intro ht hns
    have hopen : ¬ (tok = tok_of '(' ∨ tok = tok_of '[') := by
      rcases ht with h | h <;> rw [h] <;> decide
    have hclose : ¬ (tok = tok_of ')' ∨ tok = tok_of ']') := by
      rcases ht with h | h <;> rw [h] <;> decide
    unfold read_sql_step at hns ⊢
    by_cases h1 : tok = until1 ∧ parenlevel = 0
    · simp [h1] at hns
    · by_cases h2 : tok = until2 ∧ parenlevel = 0
      · simp [h1, h2] at hns
      · by_cases h3 : tok = until3 ∧ parenlevel = 0
        · simp [h1, h2, h3] at hns
        · rw [if_neg h1, if_neg h2, if_neg h3, if_neg hopen, if_neg hclose]
          exact hendfail ht parenlevel

/-- Claim C30.  The claim says that reaching the end of the input before a terminator always
raises an error.  `read_sql_expression(K_THEN, "THEN")` passes `until2 = until3 = 0` for "no
alternate terminator", and the end of the input is token `0`: at bracket depth 0 the test
`tok == until2 && parenlevel == 0` holds there and the loop is left before the check for the end
of the function text is reached.  On the text `x ` with no `THEN`, the call returns the
expression `x` with ending token `0` and raises nothing; with `x ;` it raises the "missing THEN"
error as claimed. -/
theorem read_sql_construct_end_of_input_no_error (until1 until3 : Int) (expected : CString)
    (isexpression : Bool) (yylloc : Int) :
    read_sql_step until1 0 until3 expected isexpression 0 yylloc 0 = SqlStep.stop ∧
    read_sql_expression "x ".toList true (fun _ _ => none) K_THEN "THEN".toList
        [plain_token T_WORD 0]
      = some (Except.ok
          ({ query := "x".toList, parseMode := RAW_PARSE_PLPGSQL_EXPR, target_param := -1 },
            0, 0, [])) ∧
    read_sql_expression "x ;".toList true (fun _ _ => none) K_THEN "THEN".toList
        [plain_token T_WORD 0, plain_token (tok_of ';') 2]
      = some (Except.error (PgError.ereport "ERRCODE_SYNTAX_ERROR"
          "missing \"%s\" at end of SQL expression" [ErrArg.str "THEN".toList] (some 2))) := by
  refine ⟨?_, rfl, rfl⟩
  unfold read_sql_step
  by_cases h1 : (0 : Int) = until1 <;> simp [h1]

end Pglite
